import Mathlib

/-!
# pokedex-cli-demo: the `get` command (`cmd/get.go`)

A shallow embedding of `getPokemon` and of the handler of `getCmd`, together
with the parts of the Go standard library they rely on:

* `encoding/json`: the byte-level scanner (`checkValid`), string unquoting and
  the reflection-driven decoder (`json.Unmarshal`) for the kinds of Go types
  that occur in `Response` (bool, int, string, `interface{}`, slices, structs);
* `fmt`: `Sprintf` with one `%s` verb and `Println`;
* `net/http`, `net/url`, `io/ioutil`, `log`: `http.Get` rejects a URL with a
  control character as `url.Parse` does; what the network does with any other
  URL is an explicit environment (`World`).  A run leaves an explicit record
  (`Effect`): the URLs passed to `http.Get`, the GET requests issued, the
  lines written to standard output, the messages logged, and how the run
  ends.  The deferred `resp.Body.Close()` has no effect that the record shows.

Conventions.  A Go `string` is a Lean `String`: every string the decoder
produces is valid UTF-8 (the decoder replaces invalid bytes by U+FFFD), the
string constants of the program are ASCII, and the command-line argument is
taken to be valid UTF-8.  A response body is a list of bytes.  Go `int` is the
64-bit signed integer of the platforms the program is built for.  The one part
of the library left open is the range check of `strconv.ParseFloat`, used
when a number is stored in an `interface{}`: it is a parameter (`floatOk`).
-/

namespace Pokedex

/-! ## JSON values -/

/-- A syntactically valid JSON text, as `encoding/json` sees it.  A number keeps
its literal, because the decoder converts it only once the target type is
known; object members keep their order and their duplicates. -/
inductive JSONValue where
  | null
  | bool (b : Bool)
  | num (lit : String)
  | str (s : String)
  | arr (elems : List JSONValue)
  | obj (members : List (String × JSONValue))

/-! ## String unquoting (`encoding/json.unquoteBytes`) -/

/-- Value of a hexadecimal digit. -/
def hexVal (b : UInt8) : Option Nat :=
  if 0x30 ≤ b ∧ b ≤ 0x39 then some (b.toNat - 0x30)
  else if 0x61 ≤ b ∧ b ≤ 0x66 then some (b.toNat - 0x61 + 10)
  else if 0x41 ≤ b ∧ b ≤ 0x46 then some (b.toNat - 0x41 + 10)
  else none

/-- The 16-bit value of four hexadecimal digits. -/
def hex4 (a b c d : UInt8) : Option Nat :=
  match hexVal a, hexVal b, hexVal c, hexVal d with
  | some a, some b, some c, some d => some (((a * 16 + b) * 16 + c) * 16 + d)
  | _, _, _, _ => none

/-- The Unicode replacement character U+FFFD (`unicode.ReplacementChar`,
`utf8.RuneError`). -/
def replacementChar : Char := Char.ofNat 0xFFFD

/-- Go `utf16.IsSurrogate`. -/
def isSurrogate (r : Nat) : Bool := 0xD800 ≤ r && r < 0xE000

/-- Go `utf16.DecodeRune`: the code point of a surrogate pair, U+FFFD when the
two values are not a high surrogate followed by a low surrogate. -/
def utf16DecodeRune (r1 r2 : Nat) : Char :=
  if 0xD800 ≤ r1 ∧ r1 < 0xDC00 ∧ 0xDC00 ≤ r2 ∧ r2 < 0xE000 then
    Char.ofNat ((r1 - 0xD800) * 1024 + (r2 - 0xDC00) + 0x10000)
  else replacementChar

/-- The character a one-letter escape stands for (`\"`, `\\`, `\/`, `\b`, `\f`,
`\n`, `\r`, `\t`). -/
def escapeChar (e : UInt8) : Option Char :=
  if e = 0x22 then some (Char.ofNat 0x22)
  else if e = 0x5C then some (Char.ofNat 0x5C)
  else if e = 0x2F then some (Char.ofNat 0x2F)
  else if e = 0x62 then some (Char.ofNat 0x08)
  else if e = 0x66 then some (Char.ofNat 0x0C)
  else if e = 0x6E then some (Char.ofNat 0x0A)
  else if e = 0x72 then some (Char.ofNat 0x0D)
  else if e = 0x74 then some (Char.ofNat 0x09)
  else none

/-- A UTF-8 continuation byte (`0x80..0xBF`). -/
def isCont (b : UInt8) : Bool := 0x80 ≤ b && b ≤ 0xBF

/-- Number of bytes of the UTF-8 sequence a lead byte announces (`utf8.first`);
`0` for a byte that cannot start a multi-byte sequence. -/
def leadWidth (b0 : UInt8) : Nat :=
  if 0xC2 ≤ b0 ∧ b0 ≤ 0xDF then 2
  else if 0xE0 ≤ b0 ∧ b0 ≤ 0xEF then 3
  else if 0xF0 ≤ b0 ∧ b0 ≤ 0xF4 then 4
  else 0

/-- The range of the second byte depends on the lead byte (`utf8.acceptRanges`):
no overlong forms, no surrogates, nothing above U+10FFFF. -/
def secondOk (b0 b1 : UInt8) : Bool :=
  if b0 = 0xE0 then 0xA0 ≤ b1 && b1 ≤ 0xBF
  else if b0 = 0xED then 0x80 ≤ b1 && b1 ≤ 0x9F
  else if b0 = 0xF0 then 0x90 ≤ b1 && b1 ≤ 0xBF
  else if b0 = 0xF4 then 0x80 ≤ b1 && b1 ≤ 0x8F
  else isCont b1

/-- Code point of a complete two-byte sequence. -/
def rune2 (b0 b1 : UInt8) : Char :=
  Char.ofNat ((b0.toNat - 0xC0) * 64 + (b1.toNat - 0x80))

/-- Code point of a complete three-byte sequence. -/
def rune3 (b0 b1 b2 : UInt8) : Char :=
  Char.ofNat (((b0.toNat - 0xE0) * 64 + (b1.toNat - 0x80)) * 64 + (b2.toNat - 0x80))

/-- Code point of a complete four-byte sequence. -/
def rune4 (b0 b1 b2 b3 : UInt8) : Char :=
  Char.ofNat ((((b0.toNat - 0xF0) * 64 + (b1.toNat - 0x80)) * 64
    + (b2.toNat - 0x80)) * 64 + (b3.toNat - 0x80))

/-- Where `unquoteBytes` stands inside an escape. -/
inductive EscMode where
  | plain
  | backslash
  | hex (digits : List Nat)

/-- State of `unquoteBytes` between two bytes.  `out` holds the characters
written so far, last first.  `hi` is a high surrogate read from a `\uXXXX`
escape whose low half has not been seen yet (Go looks ahead with `getu4`; here
the decision is taken when the next escape has been read).  `part` holds the
bytes of a UTF-8 sequence that is not complete yet (Go's `utf8.DecodeRune`
looks ahead; here each byte is checked as it comes). -/
structure UnquoteState where
  out : List Char
  hi : Option Nat
  part : List UInt8
  mode : EscMode

/-- Write one character; a high surrogate still waiting for its low half is
written as U+FFFD first. -/
def UnquoteState.emit (s : UnquoteState) (ch : Char) : UnquoteState :=
  match s.hi with
  | some _ => { s with out := ch :: replacementChar :: s.out, hi := none }
  | none => { s with out := ch :: s.out }

/-- Give up an incomplete UTF-8 sequence: `utf8.DecodeRune` yields U+FFFD of
width 1 for its lead byte and then for each continuation byte read so far
(a continuation byte cannot start a sequence). -/
def UnquoteState.dropPart (s : UnquoteState) : UnquoteState :=
  { s with out := s.part.map (fun _ => replacementChar) ++ s.out, part := [] }

/-- The value `rr` of a complete `\uXXXX` escape.  After a waiting high
surrogate a low surrogate completes the pair (`utf16.DecodeRune`); anything
else leaves the waiting one to become U+FFFD.  A high surrogate waits; a low
surrogate on its own is U+FFFD. -/
def UnquoteState.escapeU (s : UnquoteState) (rr : Nat) : UnquoteState :=
  match s.hi with
  | some h =>
    if 0xDC00 ≤ rr ∧ rr < 0xE000 then
      { s with out := utf16DecodeRune h rr :: s.out, hi := none, mode := .plain }
    else if 0xD800 ≤ rr ∧ rr < 0xDC00 then
      { s with out := replacementChar :: s.out, hi := some rr, mode := .plain }
    else { s with out := Char.ofNat rr :: replacementChar :: s.out, hi := none, mode := .plain }
  | none =>
    if 0xD800 ≤ rr ∧ rr < 0xDC00 then { s with hi := some rr, mode := .plain }
    else if isSurrogate rr then { s with out := replacementChar :: s.out, mode := .plain }
    else { s with out := Char.ofNat rr :: s.out, mode := .plain }

/-- A byte read outside an escape and outside a UTF-8 sequence. -/
def UnquoteState.fresh (s : UnquoteState) (b : UInt8) : UnquoteState :=
  if b = 0x5C then { s with mode := .backslash }
  else if b < 0x80 then s.emit (Char.ofNat b.toNat)
  else if leadWidth b = 0 then s.emit replacementChar
  else
    match s.hi with
    | some _ => { s with out := replacementChar :: s.out, hi := none, part := [b] }
    | none => { s with part := [b] }

/-- One byte of `unquoteBytes`. -/
def UnquoteState.step (s : UnquoteState) (b : UInt8) : UnquoteState :=
  match s.mode with
  | .backslash =>
    if b = 0x75 then { s with mode := .hex [] }
    else
      match escapeChar b with
      | some ch => { s.emit ch with mode := .plain }
      | none => { s with mode := .plain }
  | .hex ds =>
    match hexVal b, ds with
    | some d, [a, b1, c] => s.escapeU (((a * 16 + b1) * 16 + c) * 16 + d)
    | some d, _ => { s with mode := .hex (ds ++ [d]) }
    | none, _ => { s with mode := .plain }
  | .plain =>
    match s.part with
    | [] => s.fresh b
    | [b0] =>
      if secondOk b0 b then
        if leadWidth b0 = 2 then { s with out := rune2 b0 b :: s.out, part := [] }
        else { s with part := [b0, b] }
      else s.dropPart.fresh b
    | [b0, b1] =>
      if isCont b then
        if leadWidth b0 = 3 then { s with out := rune3 b0 b1 b :: s.out, part := [] }
        else { s with part := [b0, b1, b] }
      else s.dropPart.fresh b
    | [b0, b1, b2] =>
      if isCont b then { s with out := rune4 b0 b1 b2 b :: s.out, part := [] }
      else s.dropPart.fresh b
    | _ => s.dropPart.fresh b

/-- Go `unquoteBytes` on the bytes between the two quotes of a string literal
the scanner has accepted: escapes are replaced, `\uXXXX` surrogate pairs are
combined (a surrogate without its partner becomes U+FFFD), and the other bytes
are read as UTF-8, each byte that is not part of a valid sequence becoming
U+FFFD. -/
def unquote (raw : List UInt8) : String :=
  let s := raw.foldl UnquoteState.step { out := [], hi := none, part := [], mode := .plain }
  let s := s.dropPart
  String.mk (match s.hi with
    | some _ => (replacementChar :: s.out).reverse
    | none => s.out.reverse)

/-! ## The scanner (`encoding/json` `scanner`, `checkValid`) -/

/-- The lexical units of a JSON text. -/
inductive Token where
  | beginObject
  | endObject
  | beginArray
  | endArray
  | colon
  | comma
  | literal (v : JSONValue)

/-- Scanner states inside a number (Go `stateNeg`, `state0`, `state1`,
`stateDot`, `stateDot0`, `stateE`, `stateESign`, `stateE0`). -/
inductive NumState where
  | neg
  | zero
  | int
  | dot
  | frac
  | exp
  | expSign
  | expDigits

/-- Scanner states inside a string (Go `stateInString`, `stateInStringEsc`,
`stateInStringEscU` and its successors, counted by the hex digits read). -/
inductive StrState where
  | chars
  | esc
  | escU (seen : Nat)

/-- State of the scanner between two bytes.  `inString` and `inNumber` carry the
bytes of the literal read so far, last first; `inWord` carries the bytes still
expected of `true`, `false` or `null`. -/
inductive LexState where
  | ground
  | inString (st : StrState) (raw : List UInt8)
  | inNumber (st : NumState) (lit : List UInt8)
  | inWord (expect : List UInt8) (v : JSONValue)

/-- Go `isSpace`: space, tab, carriage return, line feed. -/
def isSpace (b : UInt8) : Bool := b = 0x20 || b = 0x09 || b = 0x0D || b = 0x0A

/-- An ASCII decimal digit. -/
def isDigit (b : UInt8) : Bool := 0x30 ≤ b && b ≤ 0x39

/-- The literal of a number, from its bytes (last first). -/
def litOfBytes (lit : List UInt8) : String :=
  String.mk (lit.reverse.map (fun b => Char.ofNat b.toNat))

/-- A byte where a new token may start (Go `stateBeginValue` and the
punctuation handled by `stateEndValue`). -/
def groundStep (b : UInt8) : Option (List Token × LexState) :=
  if isSpace b then some ([], .ground)
  else if b = 0x7B then some ([.beginObject], .ground)
  else if b = 0x7D then some ([.endObject], .ground)
  else if b = 0x5B then some ([.beginArray], .ground)
  else if b = 0x5D then some ([.endArray], .ground)
  else if b = 0x3A then some ([.colon], .ground)
  else if b = 0x2C then some ([.comma], .ground)
  else if b = 0x22 then some ([], .inString .chars [])
  else if b = 0x2D then some ([], .inNumber .neg [b])
  else if b = 0x30 then some ([], .inNumber .zero [b])
  else if isDigit b then some ([], .inNumber .int [b])
  else if b = 0x74 then some ([], .inWord [0x72, 0x75, 0x65] (.bool true))
  else if b = 0x66 then some ([], .inWord [0x61, 0x6C, 0x73, 0x65] (.bool false))
  else if b = 0x6E then some ([], .inWord [0x75, 0x6C, 0x6C] .null)
  else none

/-- What a byte means to a number in progress. -/
inductive NumNext where
  | more (st : NumState)
  | stop
  | bad

/-- One byte inside a number: the number goes on, ends before this byte, or
is malformed. -/
def numStep (st : NumState) (b : UInt8) : NumNext :=
  match st with
  | .neg => if b = 0x30 then .more .zero else if isDigit b then .more .int else .bad
  | .zero =>
    if b = 0x2E then .more .dot else if b = 0x65 ∨ b = 0x45 then .more .exp else .stop
  | .int =>
    if isDigit b then .more .int
    else if b = 0x2E then .more .dot else if b = 0x65 ∨ b = 0x45 then .more .exp else .stop
  | .dot => if isDigit b then .more .frac else .bad
  | .frac =>
    if isDigit b then .more .frac else if b = 0x65 ∨ b = 0x45 then .more .exp else .stop
  | .exp =>
    if b = 0x2B ∨ b = 0x2D then .more .expSign
    else if isDigit b then .more .expDigits else .bad
  | .expSign => if isDigit b then .more .expDigits else .bad
  | .expDigits => if isDigit b then .more .expDigits else .stop

/-- A number may end in this state. -/
def NumState.accepting : NumState → Bool
  | .zero => true
  | .int => true
  | .frac => true
  | .expDigits => true
  | _ => false

/-- One byte of the scanner: the tokens completed by it and the next state, or
`none` on a syntax error. -/
def lexStep (st : LexState) (b : UInt8) : Option (List Token × LexState) :=
  match st with
  | .ground => groundStep b
  | .inString .chars raw =>
    if b = 0x22 then some ([.literal (.str (unquote raw.reverse))], .ground)
    else if b = 0x5C then some ([], .inString .esc (b :: raw))
    else if b < 0x20 then none
    else some ([], .inString .chars (b :: raw))
  | .inString .esc raw =>
    if b = 0x75 then some ([], .inString (.escU 0) (b :: raw))
    else if (escapeChar b).isSome then some ([], .inString .chars (b :: raw))
    else none
  | .inString (.escU n) raw =>
    if (hexVal b).isSome then
      some ([], .inString (if n = 3 then .chars else .escU (n + 1)) (b :: raw))
    else none
  | .inNumber ns lit =>
    match numStep ns b with
    | .more ns1 => some ([], .inNumber ns1 (b :: lit))
    | .bad => none
    | .stop =>
      match groundStep b with
      | some (ts, st1) => some (.literal (.num (litOfBytes lit)) :: ts, st1)
      | none => none
  | .inWord [] _ => none
  | .inWord [c] v => if b = c then some ([.literal v], .ground) else none
  | .inWord (c :: rest) v => if b = c then some ([], .inWord rest v) else none

/-- The scanner at the end of the input (Go `scanner.eof`, as far as tokens
go): a number may end here, a string or a word may not. -/
def lexEnd (st : LexState) : Option (List Token) :=
  match st with
  | .ground => some []
  | .inNumber ns lit => if ns.accepting then some [.literal (.num (litOfBytes lit))] else none
  | _ => none

/-- The tokens of a byte sequence, `none` on a lexical error. -/
def lex : LexState → List UInt8 → Option (List Token)
  | st, [] => lexEnd st
  | st, b :: bs =>
    match lexStep st b with
    | none => none
    | some (ts, st1) =>
      match lex st1 bs with
      | none => none
      | some rest => some (ts ++ rest)

/-! ## The grammar (`scanner.parseState`) -/

/-- An array or object that is still open, with what it holds so far (last
first) and, for an object, the key whose value is being read. -/
inductive Frame where
  | array (done : List JSONValue)
  | object (done : List (String × JSONValue)) (key : Option String)

/-- What the grammar allows next. -/
inductive Phase where
  | value
  | valueOrEnd
  | keyOrEnd
  | key
  | colon
  | next
  | finished (v : JSONValue)

/-- State of the parser between two tokens: the open arrays and objects,
innermost first, and what may come next. -/
structure ParseState where
  stack : List Frame
  phase : Phase

/-- Go `maxNestingDepth`: arrays and objects nested deeper are a syntax
error. -/
def maxNestingDepth : Nat := 10000

/-- A value is complete: it is the whole text, or it goes into the innermost
open array or object. -/
def completeValue (stack : List Frame) (v : JSONValue) : ParseState :=
  match stack with
  | [] => { stack := [], phase := .finished v }
  | .array done :: rest => { stack := .array (v :: done) :: rest, phase := .next }
  | .object done (some k) :: rest =>
    { stack := .object ((k, v) :: done) none :: rest, phase := .next }
  | .object done none :: rest => { stack := .object done none :: rest, phase := .next }

/-- Open an array or object, unless the nesting is too deep
(Go `pushParseState`). -/
def pushFrame (stack : List Frame) (f : Frame) (phase : Phase) : Option ParseState :=
  if stack.length + 1 ≤ maxNestingDepth then some { stack := f :: stack, phase := phase }
  else none

/-- Close the innermost array (`closeArray := true`) or object. -/
def closeFrame (stack : List Frame) (closeArray : Bool) : Option ParseState :=
  match stack, closeArray with
  | .array done :: rest, true => some (completeValue rest (.arr done.reverse))
  | .object done none :: rest, false => some (completeValue rest (.obj done.reverse))
  | _, _ => none

/-- The start of a value. -/
def beginValue (stack : List Frame) (t : Token) : Option ParseState :=
  match t with
  | .literal v => some (completeValue stack v)
  | .beginArray => pushFrame stack (.array []) .valueOrEnd
  | .beginObject => pushFrame stack (.object [] none) .keyOrEnd
  | _ => none

/-- An object key: a string, remembered in the innermost frame. -/
def beginKey (stack : List Frame) (t : Token) : Option ParseState :=
  match t, stack with
  | .literal (.str k), .object done _ :: rest =>
    some { stack := .object done (some k) :: rest, phase := .colon }
  | _, _ => none

/-- One token of the grammar, `none` on a syntax error. -/
def parseStep (s : ParseState) (t : Token) : Option ParseState :=
  match s.phase, t with
  | .value, t => beginValue s.stack t
  | .valueOrEnd, .endArray => closeFrame s.stack true
  | .valueOrEnd, t => beginValue s.stack t
  | .keyOrEnd, .endObject => closeFrame s.stack false
  | .keyOrEnd, t => beginKey s.stack t
  | .key, t => beginKey s.stack t
  | .colon, .colon => some { s with phase := .value }
  | .colon, _ => none
  | .next, .comma =>
    match s.stack with
    | .array _ :: _ => some { s with phase := .value }
    | .object _ _ :: _ => some { s with phase := .key }
    | [] => none
  | .next, .endArray => closeFrame s.stack true
  | .next, .endObject => closeFrame s.stack false
  | .next, _ => none
  | .finished _, _ => none

/-- Run the grammar over the tokens; the text is valid when exactly one value
has been completed at the end. -/
def parseTokens : ParseState → List Token → Option JSONValue
  | s, [] =>
    match s.phase with
    | .finished v => some v
    | _ => none
  | s, t :: ts =>
    match parseStep s t with
    | none => none
    | some s1 => parseTokens s1 ts

/-- The JSON value of a response body: `some v` when `checkValid` accepts the
bytes (then `v` is the value the decoder walks), `none` when it reports a
`SyntaxError`. -/
def parseJSON (body : List UInt8) : Option JSONValue :=
  match lex .ground body with
  | none => none
  | some ts => parseTokens { stack := [], phase := .value } ts

/-- The UTF-8 bytes of a string. -/
def utf8 (s : String) : List UInt8 := s.data.flatMap String.utf8EncodeChar

/-! ## Go types and values -/

/-- The kinds of Go types that occur in `Response`.  A struct field is its Go
name, its JSON key (the `json:"..."` tag) and its type. -/
inductive GoType where
  | bool
  | int
  | string
  | iface
  | slice (elem : GoType)
  | struct (fields : List (String × String × GoType))

/-- Go values of these types, and the values `json.Unmarshal` stores in an
`interface{}` (`float64`, `[]interface{}`, `map[string]interface{}`).

* `float64 lit` is the `float64` that `strconv.ParseFloat` returns for the
  literal `lit`;
* `nilIface` is the nil interface, `nilSlice` the nil slice;
* `slice elems spare` is a non-nil slice with the elements `elems`; `spare` is
  what its backing array still holds behind them, which the decoder meets
  again when it extends the slice in place;
* `map entries` is a map, one entry per key;
* `struct fields` gives the value of each field, by Go name. -/
inductive GoValue where
  | bool (b : Bool)
  | int (i : Int)
  | str (s : String)
  | float64 (lit : String)
  | nilIface
  | nilSlice
  | slice (elems : List GoValue) (spare : List GoValue)
  | map (entries : List (String × GoValue))
  | struct (fields : List (String × GoValue))

mutual
/-- The zero value of a type. -/
def zero : GoType → GoValue
  | .bool => .bool false
  | .int => .int 0
  | .string => .str ""
  | .iface => .nilIface
  | .slice _ => .nilSlice
  | .struct fs => .struct (zeroFields fs)
/-- The zero values of the fields of a struct. -/
def zeroFields : List (String × String × GoType) → List (String × GoValue)
  | [] => []
  | (n, _, t) :: fs => (n, zero t) :: zeroFields fs
end

/-- The field `name` of a struct value (`v.name` in Go). -/
def GoValue.field (v : GoValue) (name : String) : Option GoValue :=
  match v with
  | .struct fs => fs.lookup name
  | _ => none

/-- Store `x` in the field `name`. -/
def setField (fs : List (String × GoValue)) (name : String) (x : GoValue) :
    List (String × GoValue) :=
  fs.map (fun f => if f.1 = name then (f.1, x) else f)

/-- The fields of a struct value. -/
def GoValue.fields : GoValue → List (String × GoValue)
  | .struct fs => fs
  | _ => []

/-- What a slice's backing array holds: its elements, then the spare ones. -/
def GoValue.backing : GoValue → List GoValue
  | .slice elems spare => elems ++ spare
  | _ => []

/-- Go `m[k] = x`. -/
def mapSet (m : List (String × GoValue)) (k : String) (x : GoValue) :
    List (String × GoValue) :=
  match m with
  | [] => [(k, x)]
  | e :: rest => if e.1 = k then (k, x) :: rest else e :: mapSet rest k x

/-! ## Matching object keys to struct fields -/

/-- Unicode simple case folding, as far as it reaches the ASCII letters: the
upper-case letters, the Kelvin sign U+212A (folds to `k`) and the long s U+017F
(folds to `s`).  Every other character is left alone. -/
def foldRune (c : Char) : Char :=
  if 0x41 ≤ c.toNat ∧ c.toNat ≤ 0x5A then Char.ofNat (c.toNat + 0x20)
  else if c.toNat = 0x212A then Char.ofNat 0x6B
  else if c.toNat = 0x17F then Char.ofNat 0x73
  else c

/-- Go `bytes.EqualFold(name, key)` for an ASCII field name `name` (the
decoder's `equalFold`): equal up to simple case folding. -/
def equalFold (name key : String) : Bool :=
  name.data.map foldRune == key.data.map foldRune

/-- The struct field an object key is decoded into: the field whose JSON key
is exactly `key`, otherwise the first field whose JSON key equals it up to
case; `none` when there is neither, and the member is skipped. -/
def findField (fields : List (String × String × GoType)) (key : String) :
    Option (String × String × GoType) :=
  match fields.find? (fun f => f.2.1 = key) with
  | some f => some f
  | none => fields.find? (fun f => equalFold f.2.1 key)

/-- The object key `key` is decoded into the field with the Go name `name`. -/
def routesTo (fields : List (String × String × GoType)) (name : String) (key : String) : Bool :=
  match findField fields key with
  | some f => f.1 = name
  | none => false

/-! ## Numbers -/

/-- Value of a non-empty string of decimal digits. -/
def digitsValue (ds : List Char) : Option Nat :=
  if ds.isEmpty then none
  else ds.foldl (fun acc c =>
    match acc with
    | none => none
    | some n => if c.isDigit then some (n * 10 + (c.toNat - 0x30)) else none) (some 0)

/-- Go `strconv.ParseInt(lit, 10, 64)`: an optional sign and decimal digits,
within the range of `int64`; `none` for every other literal (a fraction, an
exponent, a value out of range). -/
def parseInt64 (lit : String) : Option Int :=
  match lit.data with
  | '-' :: ds =>
    match digitsValue ds with
    | some n => if n ≤ 2 ^ 63 then some (-(n : Int)) else none
    | none => none
  | '+' :: ds =>
    match digitsValue ds with
    | some n => if n < 2 ^ 63 then some (n : Int) else none
    | none => none
  | ds =>
    match digitsValue ds with
    | some n => if n < 2 ^ 63 then some (n : Int) else none
    | none => none

/-! ## The decoder (`encoding/json` `decodeState`) -/

/-- The errors of `json.Unmarshal`: a `SyntaxError` from `checkValid`, or an
`UnmarshalTypeError` for a JSON value that does not fit its Go type, with the
description of the value (`"string"`, `"number 1.5"`, ...) it reports. -/
inductive UnmarshalError where
  | syntaxError
  | typeError (value : String)

mutual
/-- Go `valueInterface`: the value stored in an `interface{}`.  `floatOk lit`
says whether `strconv.ParseFloat(lit, 64)` succeeds; when it does not, the
number becomes nil and an error is recorded. -/
def valueInterface (floatOk : String → Bool) : JSONValue → GoValue × List UnmarshalError
  | .null => (.nilIface, [])
  | .bool b => (.bool b, [])
  | .str s => (.str s, [])
  | .num lit =>
    if floatOk lit then (.float64 lit, []) else (.nilIface, [.typeError ("number " ++ lit)])
  | .arr xs =>
    let r := arrayInterface floatOk xs
    (.slice r.1 [], r.2)
  | .obj ms =>
    let r := objectInterface floatOk [] ms
    (.map r.1, r.2)
/-- Go `arrayInterface`: the elements of a `[]interface{}`. -/
def arrayInterface (floatOk : String → Bool) : List JSONValue → List GoValue × List UnmarshalError
  | [] => ([], [])
  | x :: xs =>
    let r := valueInterface floatOk x
    let rs := arrayInterface floatOk xs
    (r.1 :: rs.1, r.2 ++ rs.2)
/-- Go `objectInterface`: the entries of a `map[string]interface{}`, each
member stored under its key in turn. -/
def objectInterface (floatOk : String → Bool) (m : List (String × GoValue)) :
    List (String × JSONValue) → List (String × GoValue) × List UnmarshalError
  | [] => (m, [])
  | (k, x) :: ms =>
    let r := valueInterface floatOk x
    let rs := objectInterface floatOk (mapSet m k r.1) ms
    (rs.1, r.2 ++ rs.2)
end

mutual
/-- Go `decodeState.value` with its `literalStore`, `array` and `object`:
decode the JSON value `j` into a variable of type `ty` that holds `old`.  The
result is the new content of the variable and the type errors met, in order;
on a type error the variable keeps what it held and decoding goes on. -/
def decode (floatOk : String → Bool) : GoType → GoValue → JSONValue →
    GoValue × List UnmarshalError
  | ty, old, .null =>
    match ty with
    | .iface => (.nilIface, [])
    | .slice _ => (.nilSlice, [])
    | _ => (old, [])
  | ty, old, .bool b =>
    match ty with
    | .bool => (.bool b, [])
    | .iface => (.bool b, [])
    | _ => (old, [.typeError "bool"])
  | ty, old, .str s =>
    match ty with
    | .string => (.str s, [])
    | .iface => (.str s, [])
    | _ => (old, [.typeError "string"])
  | ty, old, .num lit =>
    match ty with
    | .int =>
      match parseInt64 lit with
      | some n => (.int n, [])
      | none => (old, [.typeError ("number " ++ lit)])
    | .iface =>
      if floatOk lit then (.float64 lit, []) else (old, [.typeError ("number " ++ lit)])
    | _ => (old, [.typeError "number"])
  | ty, old, .arr xs =>
    match ty with
    | .iface =>
      let r := arrayInterface floatOk xs
      (.slice r.1 [], r.2)
    | .slice elem =>
      match xs with
      | [] => (.slice [] [], [])
      | _ :: _ =>
        let r := decodeElems floatOk elem old.backing xs
        (.slice r.1 r.2.1, r.2.2)
    | _ => (old, [.typeError "array"])
  | ty, old, .obj ms =>
    match ty with
    | .iface =>
      let r := objectInterface floatOk [] ms
      (.map r.1, r.2)
    | .struct fields =>
      let r := decodeMembers floatOk fields old.fields ms
      (.struct r.1, r.2)
    | _ => (old, [.typeError "object"])
/-- The loop of Go `decodeState.array` over a slice: the element at index `i`
is decoded into what the backing array holds at `i` (`pool`, from index `i`
on), or into a zero value once the backing array is used up.  Returns the
elements, what is left of the backing array, and the errors. -/
def decodeElems (floatOk : String → Bool) (elem : GoType) : List GoValue → List JSONValue →
    List GoValue × List GoValue × List UnmarshalError
  | pool, [] => ([], pool, [])
  | pool, x :: xs =>
    let r := decode floatOk elem (pool.head?.getD (zero elem)) x
    let rs := decodeElems floatOk elem pool.tail xs
    (r.1 :: rs.1, rs.2.1, r.2 ++ rs.2.2)
/-- The loop of Go `decodeState.object` over a struct with the field values
`cur`: each member is decoded into the field its key matches, in the order of
the text; a member that matches no field is skipped. -/
def decodeMembers (floatOk : String → Bool) (fields : List (String × String × GoType)) :
    List (String × GoValue) → List (String × JSONValue) →
    List (String × GoValue) × List UnmarshalError
  | cur, [] => (cur, [])
  | cur, (k, x) :: ms =>
    match findField fields k with
    | none => decodeMembers floatOk fields cur ms
    | some f =>
      let r := decode floatOk f.2.2 ((cur.lookup f.1).getD (zero f.2.2)) x
      let rs := decodeMembers floatOk fields (setField cur f.1 r.1) ms
      (rs.1, r.2 ++ rs.2)
end

/-- Go `json.Unmarshal(data, &v)` for a variable `v` of type `ty`: a syntax
error leaves `v` untouched; otherwise the value is decoded into `v` and the
first type error, if any, is returned. -/
def Unmarshal (floatOk : String → Bool) (data : List UInt8) (ty : GoType) (v : GoValue) :
    GoValue × Option UnmarshalError :=
  match parseJSON data with
  | none => (v, some .syntaxError)
  | some j =>
    let r := decode floatOk ty v j
    (r.1, r.2.head?)

/-! ## `cmd/get.go` -/

/-- The Go type `Response`, field by field, with the JSON key of each field's
tag. -/
def Response : GoType :=
  .struct [
    ("Abilities", "abilities", .slice (.struct [
      ("Ability", "ability", .struct [
        ("Name", "name", .string),
        ("URL", "url", .string)]),
      ("IsHidden", "is_hidden", .bool),
      ("Slot", "slot", .int)])),
    ("BaseExperience", "base_experience", .int),
    ("Forms", "forms", .slice (.struct [
      ("Name", "name", .string),
      ("URL", "url", .string)])),
    ("GameIndices", "game_indices", .slice (.struct [
      ("GameIndex", "game_index", .int),
      ("Version", "version", .struct [
        ("Name", "name", .string),
        ("URL", "url", .string)])])),
    ("Height", "height", .int),
    ("HeldItems", "held_items", .slice (.struct [
      ("Item", "item", .struct [
        ("Name", "name", .string),
        ("URL", "url", .string)]),
      ("VersionDetails", "version_details", .slice (.struct [
        ("Rarity", "rarity", .int),
        ("Version", "version", .struct [
          ("Name", "name", .string),
          ("URL", "url", .string)])]))])),
    ("ID", "id", .int),
    ("IsDefault", "is_default", .bool),
    ("LocationAreaEncounters", "location_area_encounters", .string),
    ("Moves", "moves", .slice (.struct [
      ("Move", "move", .struct [
        ("Name", "name", .string),
        ("URL", "url", .string)]),
      ("VersionGroupDetails", "version_group_details", .slice (.struct [
        ("LevelLearnedAt", "level_learned_at", .int),
        ("MoveLearnMethod", "move_learn_method", .struct [
          ("Name", "name", .string),
          ("URL", "url", .string)]),
        ("VersionGroup", "version_group", .struct [
          ("Name", "name", .string),
          ("URL", "url", .string)])]))])),
    ("Name", "name", .string),
    ("Order", "order", .int),
    ("PastTypes", "past_types", .slice (.iface)),
    ("Species", "species", .struct [
      ("Name", "name", .string),
      ("URL", "url", .string)]),
    ("Sprites", "sprites", .struct [
      ("BackDefault", "back_default", .string),
      ("BackFemale", "back_female", .iface),
      ("BackShiny", "back_shiny", .string),
      ("BackShinyFemale", "back_shiny_female", .iface),
      ("FrontDefault", "front_default", .string),
      ("FrontFemale", "front_female", .iface),
      ("FrontShiny", "front_shiny", .string),
      ("FrontShinyFemale", "front_shiny_female", .iface),
      ("Other", "other", .struct [
        ("DreamWorld", "dream_world", .struct [
          ("FrontDefault", "front_default", .string),
          ("FrontFemale", "front_female", .iface)]),
        ("OfficialArtwork", "official-artwork", .struct [
          ("FrontDefault", "front_default", .string)])]),
      ("Versions", "versions", .struct [
        ("GenerationI", "generation-i", .struct [
          ("RedBlue", "red-blue", .struct [
            ("BackDefault", "back_default", .string),
            ("BackGray", "back_gray", .string),
            ("FrontDefault", "front_default", .string),
            ("FrontGray", "front_gray", .string)]),
          ("Yellow", "yellow", .struct [
            ("BackDefault", "back_default", .string),
            ("BackGray", "back_gray", .string),
            ("FrontDefault", "front_default", .string),
            ("FrontGray", "front_gray", .string)])]),
        ("GenerationIi", "generation-ii", .struct [
          ("Crystal", "crystal", .struct [
            ("BackDefault", "back_default", .string),
            ("BackShiny", "back_shiny", .string),
            ("FrontDefault", "front_default", .string),
            ("FrontShiny", "front_shiny", .string)]),
          ("Gold", "gold", .struct [
            ("BackDefault", "back_default", .string),
            ("BackShiny", "back_shiny", .string),
            ("FrontDefault", "front_default", .string),
            ("FrontShiny", "front_shiny", .string)]),
          ("Silver", "silver", .struct [
            ("BackDefault", "back_default", .string),
            ("BackShiny", "back_shiny", .string),
            ("FrontDefault", "front_default", .string),
            ("FrontShiny", "front_shiny", .string)])]),
        ("GenerationIii", "generation-iii", .struct [
          ("Emerald", "emerald", .struct [
            ("FrontDefault", "front_default", .string),
            ("FrontShiny", "front_shiny", .string)]),
          ("FireredLeafgreen", "firered-leafgreen", .struct [
            ("BackDefault", "back_default", .string),
            ("BackShiny", "back_shiny", .string),
            ("FrontDefault", "front_default", .string),
            ("FrontShiny", "front_shiny", .string)]),
          ("RubySapphire", "ruby-sapphire", .struct [
            ("BackDefault", "back_default", .string),
            ("BackShiny", "back_shiny", .string),
            ("FrontDefault", "front_default", .string),
            ("FrontShiny", "front_shiny", .string)])]),
        ("GenerationIv", "generation-iv", .struct [
          ("DiamondPearl", "diamond-pearl", .struct [
            ("BackDefault", "back_default", .string),
            ("BackFemale", "back_female", .iface),
            ("BackShiny", "back_shiny", .string),
            ("BackShinyFemale", "back_shiny_female", .iface),
            ("FrontDefault", "front_default", .string),
            ("FrontFemale", "front_female", .iface),
            ("FrontShiny", "front_shiny", .string),
            ("FrontShinyFemale", "front_shiny_female", .iface)]),
          ("HeartgoldSoulsilver", "heartgold-soulsilver", .struct [
            ("BackDefault", "back_default", .string),
            ("BackFemale", "back_female", .iface),
            ("BackShiny", "back_shiny", .string),
            ("BackShinyFemale", "back_shiny_female", .iface),
            ("FrontDefault", "front_default", .string),
            ("FrontFemale", "front_female", .iface),
            ("FrontShiny", "front_shiny", .string),
            ("FrontShinyFemale", "front_shiny_female", .iface)]),
          ("Platinum", "platinum", .struct [
            ("BackDefault", "back_default", .string),
            ("BackFemale", "back_female", .iface),
            ("BackShiny", "back_shiny", .string),
            ("BackShinyFemale", "back_shiny_female", .iface),
            ("FrontDefault", "front_default", .string),
            ("FrontFemale", "front_female", .iface),
            ("FrontShiny", "front_shiny", .string),
            ("FrontShinyFemale", "front_shiny_female", .iface)])]),
        ("GenerationV", "generation-v", .struct [
          ("BlackWhite", "black-white", .struct [
            ("Animated", "animated", .struct [
              ("BackDefault", "back_default", .string),
              ("BackFemale", "back_female", .iface),
              ("BackShiny", "back_shiny", .string),
              ("BackShinyFemale", "back_shiny_female", .iface),
              ("FrontDefault", "front_default", .string),
              ("FrontFemale", "front_female", .iface),
              ("FrontShiny", "front_shiny", .string),
              ("FrontShinyFemale", "front_shiny_female", .iface)]),
            ("BackDefault", "back_default", .string),
            ("BackFemale", "back_female", .iface),
            ("BackShiny", "back_shiny", .string),
            ("BackShinyFemale", "back_shiny_female", .iface),
            ("FrontDefault", "front_default", .string),
            ("FrontFemale", "front_female", .iface),
            ("FrontShiny", "front_shiny", .string),
            ("FrontShinyFemale", "front_shiny_female", .iface)])]),
        ("GenerationVi", "generation-vi", .struct [
          ("OmegarubyAlphasapphire", "omegaruby-alphasapphire", .struct [
            ("FrontDefault", "front_default", .string),
            ("FrontFemale", "front_female", .iface),
            ("FrontShiny", "front_shiny", .string),
            ("FrontShinyFemale", "front_shiny_female", .iface)]),
          ("XY", "x-y", .struct [
            ("FrontDefault", "front_default", .string),
            ("FrontFemale", "front_female", .iface),
            ("FrontShiny", "front_shiny", .string),
            ("FrontShinyFemale", "front_shiny_female", .iface)])]),
        ("GenerationVii", "generation-vii", .struct [
          ("Icons", "icons", .struct [
            ("FrontDefault", "front_default", .string),
            ("FrontFemale", "front_female", .iface)]),
          ("UltraSunUltraMoon", "ultra-sun-ultra-moon", .struct [
            ("FrontDefault", "front_default", .string),
            ("FrontFemale", "front_female", .iface),
            ("FrontShiny", "front_shiny", .string),
            ("FrontShinyFemale", "front_shiny_female", .iface)])]),
        ("GenerationViii", "generation-viii", .struct [
          ("Icons", "icons", .struct [
            ("FrontDefault", "front_default", .string),
            ("FrontFemale", "front_female", .iface)])])])]),
    ("Stats", "stats", .slice (.struct [
      ("BaseStat", "base_stat", .int),
      ("Effort", "effort", .int),
      ("Stat", "stat", .struct [
        ("Name", "name", .string),
        ("URL", "url", .string)])])),
    ("Types", "types", .slice (.struct [
      ("Slot", "slot", .int),
      ("Type", "type", .struct [
        ("Name", "name", .string),
        ("URL", "url", .string)])])),
    ("Weight", "weight", .int)]

/-- The fields of a struct type. -/
def GoType.fields : GoType → List (String × String × GoType)
  | .struct fs => fs
  | _ => []

/-- The type of the field `name` of a struct type. -/
def GoType.field (ty : GoType) (name : String) : Option GoType :=
  match ty with
  | .struct fs => (fs.find? (fun f => f.1 = name)).map (fun f => f.2.2)
  | _ => none

/-- The type a path of Go field names leads to. -/
def GoType.path (ty : GoType) : List String → Option GoType
  | [] => some ty
  | n :: ns =>
    match ty.field n with
    | some t => t.path ns
    | none => none

/-- The string held by a variable of type `string`. -/
def GoValue.getString : GoValue → String
  | .str s => s
  | _ => ""

/-- The integer held by a variable of type `int`. -/
def GoValue.getInt : GoValue → Int
  | .int i => i
  | _ => 0

/-- Follow a path of Go field names (`v.A.B.C`). -/
def GoValue.path (v : GoValue) : List String → GoValue
  | [] => v
  | n :: ns =>
    match v.field n with
    | some x => x.path ns
    | none => .nilIface

/-- Go `pokemon.Name`. -/
def Name (pokemon : GoValue) : String := (pokemon.path ["Name"]).getString

/-- Go `pokemon.Order`. -/
def Order (pokemon : GoValue) : Int := (pokemon.path ["Order"]).getInt

/-- Go `pokemon.Sprites.Other.OfficialArtwork`. -/
def OfficialArtwork (pokemon : GoValue) : GoValue :=
  pokemon.path ["Sprites", "Other", "OfficialArtwork"]

/-- Go `pokemon.Sprites.Other.OfficialArtwork.FrontDefault`. -/
def FrontDefault (pokemon : GoValue) : String :=
  ((OfficialArtwork pokemon).path ["FrontDefault"]).getString

/-- A Go `error` value, as far as the program meets one: the `*url.Error` of
`net/url` (operation, URL, cause), or any other error, given by its text. -/
inductive GoError where
  | urlError (op : String) (url : String) (cause : String)
  | other (text : String)

/-- What `http.Get` hands back when it succeeds: the status code, and what
`ioutil.ReadAll(resp.Body)` then yields (the body, or a read error). -/
structure HTTPResponse where
  statusCode : Nat
  body : Except GoError (List UInt8)

/-- What `net/http` does with a URL that has passed the control-character
check of `url.Parse`: the number of GET requests it issues (none when the URL
is rejected for another reason; several when redirects are followed), and
what `http.Get` returns in the end.  How `net/http` writes the URL into a
request (it escapes the path and leaves the fragment out) is not modelled. -/
structure Exchange where
  gets : Nat
  outcome : Except GoError HTTPResponse

/-- The surroundings of a run: what the network does with each URL handed to
it, and whether `strconv.ParseFloat(lit, 64)` accepts a number literal. -/
structure World where
  transport : String → Exchange
  floatOk : String → Bool

/-- How a call ends: it returns a value, the process exits through
`log.Fatal` (status 1), or the Go runtime panics. -/
inductive Result (α : Type) where
  | returned (a : α)
  | fatal
  | panic (msg : String)

/-- A message of the `log` package that ends the process: the format and
argument of `log.Fatalf`, or the argument of `log.Fatalln`. -/
inductive LogEntry where
  | fatalf (format : String) (err : GoError)
  | fatalln (err : GoError)

/-- What a call does and how it ends: the URLs passed to `http.Get`, the
number of GET requests issued, the lines written to standard output by
`fmt.Println` (without their newline), the messages written by the `log`
package, in order. -/
structure Effect (α : Type) where
  requests : List String
  gets : Nat
  stdout : List String
  log : List LogEntry
  result : Result α

/-- A step that does nothing and returns `a`. -/
def Effect.pure {α : Type} (a : α) : Effect α :=
  { requests := [], gets := 0, stdout := [], log := [], result := .returned a }

/-- Sequencing: `e`, then `k` on what `e` returned; nothing runs after a
fatal exit or a panic. -/
def Effect.bind {α β : Type} (e : Effect α) (k : α → Effect β) : Effect β :=
  match e.result with
  | .returned a =>
    { requests := e.requests ++ (k a).requests, gets := e.gets + (k a).gets,
      stdout := e.stdout ++ (k a).stdout, log := e.log ++ (k a).log,
      result := (k a).result }
  | .fatal =>
    { requests := e.requests, gets := e.gets, stdout := e.stdout, log := e.log,
      result := .fatal }
  | .panic msg =>
    { requests := e.requests, gets := e.gets, stdout := e.stdout, log := e.log,
      result := .panic msg }

/-- Go `strings.Cut(rawURL, "#")`, the part before the separator: `url.Parse`
cuts the fragment off first. -/
def beforeFragment (rawURL : String) : String :=
  String.mk (rawURL.data.takeWhile (fun c => c != '#'))

/-- Go `stringContainsCTLByte` of `net/url`: some byte is below `0x20` or is
`0x7f`. -/
def stringContainsCTLByte (s : String) : Bool :=
  (utf8 s).any (fun b => decide (b < 0x20) || b == 0x7f)

/-- Go `http.Get(url)`.  It parses the URL before anything is sent:
`url.Parse` cuts the fragment off and rejects what is left when it contains a
control character, and `http.Get` then returns that error without issuing a
request.  Otherwise the URL goes to the network. -/
def http.Get (w : World) (url : String) : Effect (Except GoError HTTPResponse) :=
  if stringContainsCTLByte (beforeFragment url) then
    { requests := [url], gets := 0, stdout := [], log := [],
      result := .returned (.error (.urlError "parse" (beforeFragment url)
        "net/url: invalid control character in URL")) }
  else
    { requests := [url], gets := (w.transport url).gets, stdout := [], log := [],
      result := .returned (w.transport url).outcome }

/-- Go `fmt.Println(operands...)`, the operands already formatted: they are
separated by single spaces (a newline follows). -/
def Println (operands : List String) : String := " ".intercalate operands

/-- Go `fmt.Println(operands...)` as a step: one line on standard output. -/
def fmt.Println (operands : List String) : Effect Unit :=
  { requests := [], gets := 0, stdout := [Pokedex.Println operands], log := [],
    result := .returned () }

/-- Go `log.Fatalf(format, err)`: the message is logged and the process exits. -/
def log.Fatalf {α : Type} (format : String) (err : GoError) : Effect α :=
  { requests := [], gets := 0, stdout := [], log := [.fatalf format err], result := .fatal }

/-- Go `log.Fatalln(err)`: the error is logged and the process exits. -/
def log.Fatalln {α : Type} (err : GoError) : Effect α :=
  { requests := [], gets := 0, stdout := [], log := [.fatalln err], result := .fatal }

/-- Go `%v` of an `int`: decimal, with a minus sign when negative. -/
def formatInt (i : Int) : String :=
  if i < 0 then "-" ++ Nat.repr i.natAbs else Nat.repr i.natAbs

/-- Go `%v` of a struct whose fields are strings: the fields between braces,
separated by spaces. -/
def formatStruct (v : GoValue) : String :=
  "\x7b" ++ " ".intercalate (v.fields.map (fun f => f.2.getString)) ++ "\x7d"

/-- The URL of `getPokemon`:
`fmt.Sprintf("https://pokeapi.co/api/v2/pokemon/%s", userInputText)`; the verb
`%s` copies a string as it is. -/
def endpoint (userInputText : String) : String :=
  "https://pokeapi.co/api/v2/pokemon/" ++ userInputText

/-- Go `getPokemon`. -/
def getPokemon (w : World) (userInputText : String) : Effect GoValue :=
  (http.Get w (endpoint userInputText)).bind (fun got =>
    match got with
    | .error err => log.Fatalf "An Error Occured %v" err
    | .ok resp =>
      match resp.body with
      | .error err => log.Fatalln err
      | .ok body =>
        let r := Unmarshal w.floatOk body Response (zero Response)
        (match r.2 with
          | some _ => fmt.Println ["Can not unmarshal JSON"]
          | none => Effect.pure ()).bind (fun _ => Effect.pure r.1))

/-- The three lines the handler prints for a `Response`. -/
def report (pokemon : GoValue) : List String :=
  [Println ["name: ", Name pokemon],
   Println ["pokemon#: ", formatInt (Order pokemon)],
   Println ["Artwork URL: ", formatStruct (OfficialArtwork pokemon)]]

/-- The `Run` function of `getCmd`, called by cobra with the arguments that
follow `get` on the command line. -/
def getCmd.Run (w : World) (args : List String) : Effect Unit :=
  match args with
  | [] =>
    { requests := [], gets := 0, stdout := [], log := [],
      result := .panic "runtime error: index out of range [0] with length 0" }
  | arg0 :: _ =>
    (getPokemon w arg0).bind (fun pokemon =>
      (fmt.Println ["name: ", Name pokemon]).bind (fun _ =>
        (fmt.Println ["pokemon#: ", formatInt (Order pokemon)]).bind (fun _ =>
          fmt.Println ["Artwork URL: ", formatStruct (OfficialArtwork pokemon)])))

/-- A server that answers every request with the given status and body: one
GET is issued. -/
def stubServer (statusCode : Nat) (body : List UInt8) : World :=
  { transport := fun _ =>
      { gets := 1, outcome := .ok { statusCode := statusCode, body := .ok body } },
    floatOk := fun _ => true }

/-! ## Well-typed values -/

mutual
/-- Go field names are distinct within a struct, at every level. -/
def wfType : GoType → Bool
  | .slice t => wfType t
  | .struct fs => wfFields fs
  | _ => true
/-- The fields of a struct: no name occurs twice. -/
def wfFields : List (String × String × GoType) → Bool
  | [] => true
  | (n, _, t) :: fs => !(fs.map (fun f => f.1)).contains n && wfType t && wfFields fs
end

mutual
/-- The value `v` is a value of the Go type `ty`.  An `int` is within 64 bits;
a struct value has the fields of its type, in order; an `interface{}` holds
anything. -/
def hasType : GoType → GoValue → Bool
  | .bool, .bool _ => true
  | .int, .int i => decide (-(2 : Int) ^ 63 ≤ i ∧ i < (2 : Int) ^ 63)
  | .string, .str _ => true
  | .iface, _ => true
  | .slice _, .nilSlice => true
  | .slice t, .slice elems spare => allHaveType t elems && allHaveType t spare
  | .struct fs, .struct vs => fieldsHaveType fs vs
  | _, _ => false
/-- Every value of the list has the type `t`. -/
def allHaveType (t : GoType) : List GoValue → Bool
  | [] => true
  | v :: vs => hasType t v && allHaveType t vs
/-- The field values `vs` are those of a struct with the fields `fs`. -/
def fieldsHaveType : List (String × String × GoType) → List (String × GoValue) → Bool
  | [], [] => true
  | (n, _, t) :: fs, (m, v) :: vs => n = m && hasType t v && fieldsHaveType fs vs
  | _, _ => false
end

/-! ## The sprite fields and the keys of the schema; response bodies -/

/-- The type of `pokemon.Sprites`. -/
def SpritesType : GoType :=
  match Response.field "Sprites" with
  | some t => t
  | none => .struct []

mutual
/-- The fields of a struct type that are not structs themselves, each with
the path of Go field names that leads to it, and its type. -/
def leafFields : GoType → List (List String × GoType)
  | .struct fs => leafFieldsOf fs
  | t => [([], t)]
/-- The leaves below the fields of a struct. -/
def leafFieldsOf : List (String × String × GoType) → List (List String × GoType)
  | [] => []
  | (n, _, t) :: fs => (leafFields t).map (fun q => (n :: q.1, q.2)) ++ leafFieldsOf fs
end

mutual
/-- The JSON keys of a type: those of its struct fields, at every depth. -/
def jsonKeys : GoType → List String
  | .slice t => jsonKeys t
  | .struct fs => jsonKeysOf fs
  | _ => []
/-- The JSON keys of the fields of a struct and of their types. -/
def jsonKeysOf : List (String × String × GoType) → List String
  | [] => []
  | (_, k, t) :: fs => k :: (jsonKeys t ++ jsonKeysOf fs)
end

/-- The value is the string `s`. -/
def GoValue.isStr (s : String) : GoValue → Bool
  | .str x => x = s
  | _ => false

/-- The value is the nil slice. -/
def GoValue.isNilSlice : GoValue → Bool
  | .nilSlice => true
  | _ => false

/-- The type is `interface{}`. -/
def GoType.isIface : GoType → Bool
  | .iface => true
  | _ => false

/-- The type is `string`. -/
def GoType.isString : GoType → Bool
  | .string => true
  | _ => false

/-- The type is a slice type. -/
def GoType.isSlice : GoType → Bool
  | .slice _ => true
  | _ => false

/-- The body `not json`, which is not JSON. -/
def notJSON : List UInt8 := utf8 "not json"

/-- The body `{}`. -/
def emptyObject : List UInt8 := utf8 "\x7b\x7d"

/-- The body `{"NAME": "ditto"}`. -/
def upperCaseName : List UInt8 := utf8 "\x7b\"NAME\": \"ditto\"\x7d"

/-- The body `{"name": "ditto"}`. -/
def nameOnly : List UInt8 := utf8 "\x7b\"name\": \"ditto\"\x7d"

/-- The body `{"name": "ditto", "color": "pink"}`. -/
def nameAndColor : List UInt8 := utf8 "\x7b\"name\": \"ditto\", \"color\": \"pink\"\x7d"

/-- The body of the stub server of the `ditto` scenario:
`{"name": "ditto", "order": 123, "sprites": {"other": {"official-artwork":
{"front_default": "https://example/ditto.png"}}}}`. -/
def dittoFixture : List UInt8 :=
  utf8 ("\x7b\"name\": \"ditto\", \"order\": 123, \"sprites\": \x7b\"other\": " ++
    "\x7b\"official-artwork\": \x7b\"front_default\": \"https://example/ditto.png\"\x7d\x7d\x7d\x7d")

/-! ## What a document says about a field -/

mutual
/-- The JSON keys of a struct differ from one another even up to case, at
every level: an object key matches at most one field. -/
def keysDistinct : GoType → Bool
  | .slice t => keysDistinct t
  | .struct fs => keysDistinctFields fs
  | _ => true
/-- The fields of a struct: no key equals a later one up to case. -/
def keysDistinctFields : List (String × String × GoType) → Bool
  | [] => true
  | (_, k, t) :: fs =>
    fs.all (fun g => !equalFold k g.2.1) && keysDistinct t && keysDistinctFields fs
end

/-- The values that the document `j` gives to the field at the path `p` of Go
field names below a variable of type `ty`, in the order of the text.  At each
struct on the way the document must have an object; the members that count are
those whose key equals the JSON key of the next field up to case.  A document
may give several values to a field (duplicate keys), or none. -/
def valuesAt : GoType → JSONValue → List String → List JSONValue
  | _, j, [] => [j]
  | ty, j, n :: ns =>
    match ty, j with
    | .struct fs, .obj ms =>
      match fs.find? (fun f => f.1 = n) with
      | some f =>
        (ms.filter (fun m => equalFold f.2.1 m.1)).flatMap (fun m => valuesAt f.2.2 m.2 ns)
      | none => []
    | _, _ => []

/-- Decode JSON values one after the other into a variable of type `t` that
holds `old`. -/
def decodeAll (floatOk : String → Bool) (t : GoType) (old : GoValue)
    (xs : List JSONValue) : GoValue :=
  xs.foldl (fun o x => (decode floatOk t o x).1) old

/-- The field values of a struct in which the fields listed in `a` have the
value given there and the others are zero. -/
def assemble (fs : List (String × String × GoType)) (a : List (String × GoValue)) :
    List (String × GoValue) :=
  fs.map (fun f => (f.1, (a.lookup f.1).getD (zero f.2.2)))

mutual
/-- The Go value that a JSON value of the right shape stands for, in a fresh
variable of type `ty`; `none` when the value does not have the shape of the
type.  `null` stands for the zero value; `true` and `false` for a bool, a
string for a string, an integer literal within 64 bits for an int; an array
for the slice of what its elements stand for; an object for the struct in
which each member gives its value to the field whose JSON key equals the
member's key up to case, the fields that no member names being zero (a member
that names no field says nothing; two members for one field are not of the
shape).  In an `interface{}` a value stands for itself: a number for its
`float64`, an array for a `[]interface{}`, an object with distinct keys for a
`map[string]interface{}`. -/
def denote (floatOk : String → Bool) : GoType → JSONValue → Option GoValue
  | ty, .null => some (zero ty)
  | ty, .bool b =>
    match ty with
    | .bool => some (.bool b)
    | .iface => some (.bool b)
    | _ => none
  | ty, .str s =>
    match ty with
    | .string => some (.str s)
    | .iface => some (.str s)
    | _ => none
  | ty, .num lit =>
    match ty with
    | .int => (parseInt64 lit).map GoValue.int
    | .iface => if floatOk lit then some (.float64 lit) else none
    | _ => none
  | ty, .arr xs =>
    match ty with
    | .slice t => (denoteElems floatOk t xs).map (fun vs => GoValue.slice vs [])
    | .iface => (denoteElems floatOk .iface xs).map (fun vs => GoValue.slice vs [])
    | _ => none
  | ty, .obj ms =>
    match ty with
    | .struct fs => (denoteMembers floatOk fs ms).map (fun a => GoValue.struct (assemble fs a))
    | .iface => (denoteEntries floatOk ms).map GoValue.map
    | _ => none
/-- What the elements of an array stand for. -/
def denoteElems (floatOk : String → Bool) (t : GoType) : List JSONValue → Option (List GoValue)
  | [] => some []
  | x :: xs =>
    match denote floatOk t x, denoteElems floatOk t xs with
    | some v, some vs => some (v :: vs)
    | _, _ => none
/-- The fields that the members of an object name, each with the value its
member stands for. -/
def denoteMembers (floatOk : String → Bool) (fs : List (String × String × GoType)) :
    List (String × JSONValue) → Option (List (String × GoValue))
  | [] => some []
  | (k, x) :: ms =>
    match fs.find? (fun f => equalFold f.2.1 k) with
    | none => denoteMembers floatOk fs ms
    | some f =>
      match denote floatOk f.2.2 x, denoteMembers floatOk fs ms with
      | some v, some a => if (a.lookup f.1).isSome then none else some ((f.1, v) :: a)
      | _, _ => none
/-- The entries of the map an object with distinct keys stands for. -/
def denoteEntries (floatOk : String → Bool) :
    List (String × JSONValue) → Option (List (String × GoValue))
  | [] => some []
  | (k, x) :: ms =>
    match denote floatOk .iface x, denoteEntries floatOk ms with
    | some v, some es => if (es.lookup k).isSome then none else some ((k, v) :: es)
    | _, _ => none
end

/-! ## Documents that bind every sprite field -/

/-- The JSON value is `null`. -/
def JSONValue.isNull : JSONValue → Bool
  | .null => true
  | _ => false

/-- The JSON value is the string `s`. -/
def JSONValue.isStr (s : String) : JSONValue → Bool
  | .str x => x = s
  | _ => false

/-- The body is a JSON document that gives the `Response` field at the path
`p` at least one value. -/
def gives (body : List UInt8) (p : List String) : Bool :=
  match parseJSON body with
  | some doc => !(valuesAt Response doc p).isEmpty
  | none => false

/-- The body is a JSON document, and every value it gives to the `Response`
field at the path `p` satisfies `ok`. -/
def givesOnly (ok : JSONValue → Bool) (body : List UInt8) (p : List String) : Bool :=
  match parseJSON body with
  | some doc => (valuesAt Response doc p).all ok
  | none => false

/-- The body is a JSON document that gives every sprite field, at every
depth, exactly one value, and that value satisfies `ok`. -/
def bindsEverySprite (ok : JSONValue → Bool) (body : List UInt8) : Bool :=
  match parseJSON body with
  | some doc =>
    (leafFields SpritesType).all (fun q =>
      match valuesAt Response doc ("Sprites" :: q.1) with
      | [x] => ok x
      | _ => false)
  | none => false

/-- The body `{"name":"ditto","sprites":{...}}` whose `sprites` object has the shape of
the schema and binds every sprite field, at every depth, to `null`. -/
def allSpritesNull : List UInt8 :=
  utf8 ("\x7b\"name\":\"ditto\",\"sprites\":\x7b\"back_default\":null,\"back_female\":null,\"back" ++
    "_shiny\":null,\"back_shiny_female\":null,\"front_default\":null,\"front_female\":null,\"" ++
    "front_shiny\":null,\"front_shiny_female\":null,\"other\":\x7b\"dream_world\":\x7b\"front" ++
    "_default\":null,\"front_female\":null\x7d,\"official-artwork\":\x7b\"front_default\":nul" ++
    "l\x7d\x7d,\"versions\":\x7b\"generation-i\":\x7b\"red-blue\":\x7b\"back_default\":null," ++
    "\"back_gray\":null,\"front_default\":null,\"front_gray\":null\x7d,\"yellow\":\x7b\"back_" ++
    "default\":null,\"back_gray\":null,\"front_default\":null,\"front_gray\":null\x7d\x7d,\"g" ++
    "eneration-ii\":\x7b\"crystal\":\x7b\"back_default\":null,\"back_shiny\":null,\"front_def" ++
    "ault\":null,\"front_shiny\":null\x7d,\"gold\":\x7b\"back_default\":null,\"back_shiny\":n" ++
    "ull,\"front_default\":null,\"front_shiny\":null\x7d,\"silver\":\x7b\"back_default\":null" ++
    ",\"back_shiny\":null,\"front_default\":null,\"front_shiny\":null\x7d\x7d,\"generation-ii" ++
    "i\":\x7b\"emerald\":\x7b\"front_default\":null,\"front_shiny\":null\x7d,\"firered-leafgr" ++
    "een\":\x7b\"back_default\":null,\"back_shiny\":null,\"front_default\":null,\"front_shiny" ++
    "\":null\x7d,\"ruby-sapphire\":\x7b\"back_default\":null,\"back_shiny\":null,\"front_defa" ++
    "ult\":null,\"front_shiny\":null\x7d\x7d,\"generation-iv\":\x7b\"diamond-pearl\":\x7b\"ba" ++
    "ck_default\":null,\"back_female\":null,\"back_shiny\":null,\"back_shiny_female\":null,\"" ++
    "front_default\":null,\"front_female\":null,\"front_shiny\":null,\"front_shiny_female\":n" ++
    "ull\x7d,\"heartgold-soulsilver\":\x7b\"back_default\":null,\"back_female\":null,\"back_s" ++
    "hiny\":null,\"back_shiny_female\":null,\"front_default\":null,\"front_female\":null,\"fr" ++
    "ont_shiny\":null,\"front_shiny_female\":null\x7d,\"platinum\":\x7b\"back_default\":null," ++
    "\"back_female\":null,\"back_shiny\":null,\"back_shiny_female\":null,\"front_default\":nu" ++
    "ll,\"front_female\":null,\"front_shiny\":null,\"front_shiny_female\":null\x7d\x7d,\"gene" ++
    "ration-v\":\x7b\"black-white\":\x7b\"animated\":\x7b\"back_default\":null,\"back_female" ++
    "\":null,\"back_shiny\":null,\"back_shiny_female\":null,\"front_default\":null,\"front_fe" ++
    "male\":null,\"front_shiny\":null,\"front_shiny_female\":null\x7d,\"back_default\":null," ++
    "\"back_female\":null,\"back_shiny\":null,\"back_shiny_female\":null,\"front_default\":nu" ++
    "ll,\"front_female\":null,\"front_shiny\":null,\"front_shiny_female\":null\x7d\x7d,\"gene" ++
    "ration-vi\":\x7b\"omegaruby-alphasapphire\":\x7b\"front_default\":null,\"front_female\":" ++
    "null,\"front_shiny\":null,\"front_shiny_female\":null\x7d,\"x-y\":\x7b\"front_default\":" ++
    "null,\"front_female\":null,\"front_shiny\":null,\"front_shiny_female\":null\x7d\x7d,\"ge" ++
    "neration-vii\":\x7b\"icons\":\x7b\"front_default\":null,\"front_female\":null\x7d,\"ultr" ++
    "a-sun-ultra-moon\":\x7b\"front_default\":null,\"front_female\":null,\"front_shiny\":null" ++
    ",\"front_shiny_female\":null\x7d\x7d,\"generation-viii\":\x7b\"icons\":\x7b\"front_defau" ++
    "lt\":null,\"front_female\":null\x7d\x7d\x7d\x7d\x7d")

/-- The same body with every sprite field bound to the empty string `""`. -/
def allSpritesEmpty : List UInt8 :=
  utf8 ("\x7b\"name\":\"ditto\",\"sprites\":\x7b\"back_default\":\"\",\"back_female\":\"\",\"back" ++
    "_shiny\":\"\",\"back_shiny_female\":\"\",\"front_default\":\"\",\"front_female\":\"\",\"" ++
    "front_shiny\":\"\",\"front_shiny_female\":\"\",\"other\":\x7b\"dream_world\":\x7b\"front" ++
    "_default\":\"\",\"front_female\":\"\"\x7d,\"official-artwork\":\x7b\"front_default\":\"" ++
    "\"\x7d\x7d,\"versions\":\x7b\"generation-i\":\x7b\"red-blue\":\x7b\"back_default\":\"\"," ++
    "\"back_gray\":\"\",\"front_default\":\"\",\"front_gray\":\"\"\x7d,\"yellow\":\x7b\"back_" ++
    "default\":\"\",\"back_gray\":\"\",\"front_default\":\"\",\"front_gray\":\"\"\x7d\x7d,\"g" ++
    "eneration-ii\":\x7b\"crystal\":\x7b\"back_default\":\"\",\"back_shiny\":\"\",\"front_def" ++
    "ault\":\"\",\"front_shiny\":\"\"\x7d,\"gold\":\x7b\"back_default\":\"\",\"back_shiny\":" ++
    "\"\",\"front_default\":\"\",\"front_shiny\":\"\"\x7d,\"silver\":\x7b\"back_default\":\"" ++
    "\",\"back_shiny\":\"\",\"front_default\":\"\",\"front_shiny\":\"\"\x7d\x7d,\"generation-" ++
    "iii\":\x7b\"emerald\":\x7b\"front_default\":\"\",\"front_shiny\":\"\"\x7d,\"firered-leaf" ++
    "green\":\x7b\"back_default\":\"\",\"back_shiny\":\"\",\"front_default\":\"\",\"front_shi" ++
    "ny\":\"\"\x7d,\"ruby-sapphire\":\x7b\"back_default\":\"\",\"back_shiny\":\"\",\"front_de" ++
    "fault\":\"\",\"front_shiny\":\"\"\x7d\x7d,\"generation-iv\":\x7b\"diamond-pearl\":\x7b\"" ++
    "back_default\":\"\",\"back_female\":\"\",\"back_shiny\":\"\",\"back_shiny_female\":\"\"," ++
    "\"front_default\":\"\",\"front_female\":\"\",\"front_shiny\":\"\",\"front_shiny_female\"" ++
    ":\"\"\x7d,\"heartgold-soulsilver\":\x7b\"back_default\":\"\",\"back_female\":\"\",\"back" ++
    "_shiny\":\"\",\"back_shiny_female\":\"\",\"front_default\":\"\",\"front_female\":\"\",\"" ++
    "front_shiny\":\"\",\"front_shiny_female\":\"\"\x7d,\"platinum\":\x7b\"back_default\":\"" ++
    "\",\"back_female\":\"\",\"back_shiny\":\"\",\"back_shiny_female\":\"\",\"front_default\"" ++
    ":\"\",\"front_female\":\"\",\"front_shiny\":\"\",\"front_shiny_female\":\"\"\x7d\x7d,\"g" ++
    "eneration-v\":\x7b\"black-white\":\x7b\"animated\":\x7b\"back_default\":\"\",\"back_fema" ++
    "le\":\"\",\"back_shiny\":\"\",\"back_shiny_female\":\"\",\"front_default\":\"\",\"front_" ++
    "female\":\"\",\"front_shiny\":\"\",\"front_shiny_female\":\"\"\x7d,\"back_default\":\"\"" ++
    ",\"back_female\":\"\",\"back_shiny\":\"\",\"back_shiny_female\":\"\",\"front_default\":" ++
    "\"\",\"front_female\":\"\",\"front_shiny\":\"\",\"front_shiny_female\":\"\"\x7d\x7d,\"ge" ++
    "neration-vi\":\x7b\"omegaruby-alphasapphire\":\x7b\"front_default\":\"\",\"front_female" ++
    "\":\"\",\"front_shiny\":\"\",\"front_shiny_female\":\"\"\x7d,\"x-y\":\x7b\"front_default" ++
    "\":\"\",\"front_female\":\"\",\"front_shiny\":\"\",\"front_shiny_female\":\"\"\x7d\x7d," ++
    "\"generation-vii\":\x7b\"icons\":\x7b\"front_default\":\"\",\"front_female\":\"\"\x7d,\"" ++
    "ultra-sun-ultra-moon\":\x7b\"front_default\":\"\",\"front_female\":\"\",\"front_shiny\":" ++
    "\"\",\"front_shiny_female\":\"\"\x7d\x7d,\"generation-viii\":\x7b\"icons\":\x7b\"front_d" ++
    "efault\":\"\",\"front_female\":\"\"\x7d\x7d\x7d\x7d\x7d")

/-- The body `{"name":"ditto","NAME":"x","order":1}`: two members for the name. -/
def nameTwice : List UInt8 :=
  utf8 "\x7b\"name\":\"ditto\",\"NAME\":\"x\",\"order\":1\x7d"

/-- The body `{"name":"ditto","order":9223372036854775808}`: the order is 2^63. -/
def orderTooLarge : List UInt8 :=
  utf8 "\x7b\"name\":\"ditto\",\"order\":9223372036854775808\x7d"

/-- The body `{"name": "Flabébé", "order": 790, "weight": "light"}`: the
name is written with an escape and with a two-byte character, and the weight
is a string. -/
def flabebe : List UInt8 :=
  utf8 "\x7b\"name\": \"Flab\\u00e9bé\", \"order\": 790, \"weight\": \"light\"\x7d"

/-- The body `{"name": "ditto", "order": "x", "forms": [{"name":
"ditto", "url": "https://pokeapi.co/api/v2/pokemon-form/132/"}]}`: the order
is a string; the name and the forms are well-typed. -/
def orderAsStringWithForms : List UInt8 :=
  utf8 ("\x7b\"name\": \"d\\u0069tto\", \"order\": \"x\", \"forms\": [\x7b\"name\": " ++
    "\"ditto\", \"url\": \"https://pokeapi.co/api/v2/pokemon-form/132/\"\x7d]\x7d")

/-! # Properties -/

/-! ## Zero values and stored values are well typed -/

mutual
theorem hasType_zero : ∀ t : GoType, hasType t (zero t) = true
  | .bool => rfl
  | .int => by decide
  | .string => rfl
  | .iface => rfl
  | .slice _ => rfl
  | .struct fs => by
    simp only [zero, hasType]
    exact fieldsHaveType_zeroFields fs
theorem fieldsHaveType_zeroFields :
    ∀ fs : List (String × String × GoType), fieldsHaveType fs (zeroFields fs) = true
  | [] => rfl
  | (n, k, t) :: fs => by
    simp [zeroFields, fieldsHaveType, hasType_zero t, fieldsHaveType_zeroFields fs]
end

theorem fieldsHaveType_names :
    ∀ (fs : List (String × String × GoType)) (vs : List (String × GoValue)),
      fieldsHaveType fs vs = true → vs.map (fun f => f.1) = fs.map (fun f => f.1)
  | [], [], _ => rfl
  | [], _ :: _, h => by simp [fieldsHaveType] at h
  | _ :: _, [], h => by simp [fieldsHaveType] at h
  | (n, k, t) :: fs, (m, v) :: vs, h => by
    simp only [fieldsHaveType, Bool.and_eq_true, decide_eq_true_eq] at h
    simp [h.1.1, fieldsHaveType_names fs vs h.2]

theorem setField_of_not_mem (vs : List (String × GoValue)) (n : String) (x : GoValue)
    (h : n ∉ vs.map (fun f => f.1)) : setField vs n x = vs := by
  induction vs with
  | nil => rfl
  | cons a vs ih =>
    simp only [List.map_cons, List.mem_cons, not_or] at h
    have h1 : ¬ a.1 = n := fun e => h.1 e.symm
    simp only [setField, List.map_cons, h1, if_false]
    have := ih h.2
    simp only [setField] at this
    rw [this]

theorem lookup_typed :
    ∀ (fs : List (String × String × GoType)) (vs : List (String × GoValue)) (f : String × String × GoType),
      wfFields fs = true → fieldsHaveType fs vs = true → f ∈ fs →
      ∃ x, vs.lookup f.1 = some x ∧ hasType f.2.2 x = true ∧ wfType f.2.2 = true
  | [], _, _, _, _, hf => by simp at hf
  | _ :: _, [], _, _, h, _ => by simp [fieldsHaveType] at h
  | (n, k, t) :: fs, (m, v) :: vs, f, hw, h, hf => by
    simp only [fieldsHaveType, Bool.and_eq_true, decide_eq_true_eq] at h
    simp only [wfFields, Bool.and_eq_true, Bool.not_eq_true', List.contains_eq_any_beq,
      List.any_eq_false, beq_iff_eq] at hw
    obtain ⟨⟨hnm, htv⟩, hrest⟩ := h
    obtain ⟨⟨hnot, hwt⟩, hwfs⟩ := hw
    subst hnm
    rcases List.mem_cons.mp hf with rfl | hf'
    · exact ⟨v, by simp [List.lookup], htv, hwt⟩
    · have hne : (f.1 == n) = false := by
        have : f.1 ∈ fs.map (fun g => g.1) := List.mem_map_of_mem _ hf'
        have h2 := hnot f.1 this
        exact beq_eq_false_iff_ne.mpr (fun e => h2 e.symm)
      obtain ⟨x, hx, hty, hwx⟩ := lookup_typed fs vs f hwfs hrest hf'
      exact ⟨x, by simp [List.lookup, hne, hx], hty, hwx⟩

theorem setField_cons_eq (m : String) (v x : GoValue) (vs : List (String × GoValue)) :
    setField ((m, v) :: vs) m x = (m, x) :: setField vs m x := by
  simp [setField]

theorem setField_cons_ne (m n : String) (v x : GoValue) (vs : List (String × GoValue))
    (h : ¬ m = n) : setField ((m, v) :: vs) n x = (m, v) :: setField vs n x := by
  simp [setField, h]

theorem setField_typed :
    ∀ (fs : List (String × String × GoType)) (vs : List (String × GoValue))
      (f : String × String × GoType) (x : GoValue),
      wfFields fs = true → fieldsHaveType fs vs = true → f ∈ fs → hasType f.2.2 x = true →
      fieldsHaveType fs (setField vs f.1 x) = true
  | [], _, _, _, _, _, hf, _ => by simp at hf
  | _ :: _, [], _, _, _, h, _, _ => by simp [fieldsHaveType] at h
  | (n, k, t) :: fs, (m, v) :: vs, f, x, hw, h, hf, hx => by
    have hnames := fieldsHaveType_names _ _ h
    simp only [fieldsHaveType, Bool.and_eq_true, decide_eq_true_eq] at h
    simp only [wfFields, Bool.and_eq_true, Bool.not_eq_true', List.contains_eq_any_beq,
      List.any_eq_false, beq_iff_eq] at hw
    obtain ⟨⟨hnm, htv⟩, hrest⟩ := h
    obtain ⟨⟨hnot, hwt⟩, hwfs⟩ := hw
    subst hnm
    have hvs : vs.map (fun g => g.1) = fs.map (fun g => g.1) := by
      simpa using hnames
    rcases List.mem_cons.mp hf with rfl | hf'
    · have hnotin : n ∉ vs.map (fun g => g.1) := by
        rw [hvs]; intro hmem; exact hnot n hmem rfl
      rw [setField_cons_eq, setField_of_not_mem vs n x hnotin]
      simp only [fieldsHaveType, Bool.and_eq_true, decide_eq_true_eq]
      exact ⟨⟨trivial, hx⟩, hrest⟩
    · have hne : ¬ n = f.1 := hnot f.1 (List.mem_map_of_mem _ hf')
      have ih := setField_typed fs vs f x hwfs hrest hf' hx
      rw [setField_cons_ne n f.1 v x vs hne]
      simp only [fieldsHaveType, Bool.and_eq_true, decide_eq_true_eq]
      exact ⟨⟨trivial, htv⟩, ih⟩

theorem findField_mem (fields : List (String × String × GoType)) (key : String)
    (f : String × String × GoType) (h : findField fields key = some f) : f ∈ fields := by
  unfold findField at h
  split at h
  · next g hg =>
    cases h
    exact List.mem_of_find?_eq_some hg
  · exact List.mem_of_find?_eq_some h

theorem parseInt64_range (lit : String) (n : Int) (h : parseInt64 lit = some n) :
    -(2 : Int) ^ 63 ≤ n ∧ n < (2 : Int) ^ 63 := by
  unfold parseInt64 at h
  split at h
  · split at h
    · split at h
      · cases h; constructor <;> omega
      · cases h
    · cases h
  · split at h
    · split at h
      · cases h; constructor <;> omega
      · cases h
    · cases h
  · split at h
    · split at h
      · cases h; constructor <;> omega
      · cases h
    · cases h

theorem allHaveType_append (t : GoType) (xs ys : List GoValue) :
    allHaveType t (xs ++ ys) = (allHaveType t xs && allHaveType t ys) := by
  induction xs with
  | nil => simp [allHaveType]
  | cons x xs ih => simp [allHaveType, ih, Bool.and_assoc]

theorem backing_typed (t : GoType) (old : GoValue) (h : hasType (.slice t) old = true) :
    allHaveType t old.backing = true := by
  cases old <;> simp [hasType] at h <;> simp [GoValue.backing, allHaveType, allHaveType_append, h]

theorem fields_typed (fs : List (String × String × GoType)) (old : GoValue)
    (h : hasType (.struct fs) old = true) : fieldsHaveType fs old.fields = true := by
  cases old <;> simp [hasType] at h
  simpa [GoValue.fields] using h

theorem head_typed (t : GoType) (pool : List GoValue) (h : allHaveType t pool = true) :
    hasType t (pool.head?.getD (zero t)) = true := by
  cases pool with
  | nil => simpa using hasType_zero t
  | cons a as =>
    simp only [allHaveType, Bool.and_eq_true] at h
    simpa using h.1

theorem tail_typed (t : GoType) (pool : List GoValue) (h : allHaveType t pool = true) :
    allHaveType t pool.tail = true := by
  cases pool with
  | nil => simp [allHaveType]
  | cons a as =>
    simp only [allHaveType, Bool.and_eq_true] at h
    simpa using h.2

mutual
theorem decode_typed (fo : String → Bool) :
    ∀ (j : JSONValue) (ty : GoType) (old : GoValue),
      wfType ty = true → hasType ty old = true → hasType ty (decode fo ty old j).1 = true
  | .null, ty, old, _, h => by
    cases ty <;> simp [decode, hasType, h]
  | .bool b, ty, old, _, h => by
    cases ty <;> simp [decode, hasType, h]
  | .str s, ty, old, _, h => by
    cases ty <;> simp [decode, hasType, h]
  | .num lit, ty, old, _, h => by
    cases ty <;> simp only [decode] <;> try exact h
    · cases hp : parseInt64 lit with
      | none => simpa using h
      | some n =>
        have := parseInt64_range lit n hp
        simp only [hasType, decide_eq_true_eq]
        exact this
    · simp [hasType]
  | .arr xs, ty, old, hw, h => by
    cases ty <;> simp only [decode] <;> try exact h
    · simp [hasType]
    · next elem =>
      have ih := decodeElems_typed fo xs elem old.backing (by simpa [wfType] using hw)
        (backing_typed elem old h)
      cases xs with
      | nil => simp [hasType, allHaveType]
      | cons x xs' => simp [hasType, ih.1, ih.2]
  | .obj ms, ty, old, hw, h => by
    cases ty <;> simp only [decode] <;> try exact h
    · simp [hasType]
    · next fields =>
      have ih := decodeMembers_typed fo ms fields old.fields (by simpa [wfType] using hw)
        (fields_typed fields old h)
      simpa [hasType] using ih
theorem decodeElems_typed (fo : String → Bool) :
    ∀ (xs : List JSONValue) (elem : GoType) (pool : List GoValue),
      wfType elem = true → allHaveType elem pool = true →
      allHaveType elem (decodeElems fo elem pool xs).1 = true ∧
      allHaveType elem (decodeElems fo elem pool xs).2.1 = true
  | [], elem, pool, _, h => by simp [decodeElems, allHaveType, h]
  | x :: xs, elem, pool, hw, h => by
    have h1 := decode_typed fo x elem (pool.head?.getD (zero elem)) hw (head_typed elem pool h)
    have h2 := decodeElems_typed fo xs elem pool.tail hw (tail_typed elem pool h)
    simp [decodeElems, allHaveType, h1, h2.1, h2.2]
theorem decodeMembers_typed (fo : String → Bool) :
    ∀ (ms : List (String × JSONValue)) (fields : List (String × String × GoType))
      (cur : List (String × GoValue)),
      wfFields fields = true → fieldsHaveType fields cur = true →
      fieldsHaveType fields (decodeMembers fo fields cur ms).1 = true
  | [], fields, cur, _, h => by simpa [decodeMembers] using h
  | (k, x) :: ms, fields, cur, hw, h => by
    simp only [decodeMembers]
    cases hf : findField fields k with
    | none => simpa using decodeMembers_typed fo ms fields cur hw h
    | some f =>
      obtain ⟨v, hv, hty, hwf⟩ := lookup_typed fields cur f hw h (findField_mem fields k f hf)
      have h1 := decode_typed fo x f.2.2 ((cur.lookup f.1).getD (zero f.2.2)) hwf
        (by simpa [hv] using hty)
      have h2 := setField_typed fields cur f _ hw h (findField_mem fields k f hf) h1
      simpa using decodeMembers_typed fo ms fields _ hw h2
end

theorem find_name_mem (fs : List (String × String × GoType)) (n : String)
    (f : String × String × GoType) (h : fs.find? (fun g => g.1 = n) = some f) :
    f ∈ fs ∧ f.1 = n := by
  refine ⟨List.mem_of_find?_eq_some h, ?_⟩
  have := List.find?_some h
  simpa using this

/-- A field of a well-typed struct value has the type the struct type gives it. -/
theorem field_typed (ty : GoType) (v : GoValue) (n : String) (t : GoType)
    (hw : wfType ty = true) (h : hasType ty v = true) (ht : ty.field n = some t) :
    ∃ x, v.field n = some x ∧ hasType t x = true ∧ wfType t = true := by
  cases ty <;> simp only [GoType.field] at ht <;> try cases ht
  next fs =>
  cases hfind : fs.find? (fun g => g.1 = n) with
  | none => simp [hfind] at ht
  | some f =>
    simp only [hfind, Option.map_some', Option.some.injEq] at ht
    obtain ⟨hmem, hname⟩ := find_name_mem fs n f hfind
    have hfs := fields_typed fs v h
    obtain ⟨x, hx, hty, hwx⟩ := lookup_typed fs v.fields f (by simpa [wfType] using hw) hfs hmem
    refine ⟨x, ?_, ?_, ?_⟩
    · cases v <;> simp [hasType] at h
      simpa [GoValue.field, GoValue.fields, hname] using hx
    · rw [← ht]; exact hty
    · rw [← ht]; exact hwx

/-- Following a path of field names in a well-typed value arrives at a value of
the type the path leads to. -/
theorem path_typed : ∀ (p : List String) (ty : GoType) (v : GoValue) (t : GoType),
    wfType ty = true → hasType ty v = true → ty.path p = some t →
    hasType t (v.path p) = true
  | [], ty, v, t, _, h, ht => by
    simp only [GoType.path, Option.some.injEq] at ht
    subst ht
    simpa [GoValue.path] using h
  | n :: ns, ty, v, t, hw, h, ht => by
    simp only [GoType.path] at ht
    cases hf : ty.field n with
    | none => simp [hf] at ht
    | some t1 =>
      simp only [hf] at ht
      obtain ⟨x, hx, hty, hwx⟩ := field_typed ty v n t1 hw h hf
      simp only [GoValue.path, hx]
      exact path_typed ns t1 x t hwx hty ht

theorem string_of_hasType (v : GoValue) (h : hasType .string v = true) :
    v = .str v.getString := by
  cases v <;> simp [hasType] at h
  rfl

theorem Unmarshal_typed (fo : String → Bool) (body : List UInt8) :
    hasType Response (Unmarshal fo body Response (zero Response)).1 = true := by
  unfold Unmarshal
  cases parseJSON body with
  | none => exact hasType_zero Response
  | some j => exact decode_typed fo j Response (zero Response) (by rfl) (hasType_zero Response)

/-- The artwork value of a well-typed `Response` is a struct with the one
string field `FrontDefault`. -/
theorem officialArtwork_shape (r : GoValue) (h : hasType Response r = true) :
    OfficialArtwork r = .struct [("FrontDefault", .str (FrontDefault r))] := by
  have h1 := path_typed ["Sprites", "Other", "OfficialArtwork"] Response r
    (.struct [("FrontDefault", "front_default", .string)]) (by rfl) h (by rfl)
  unfold FrontDefault
  unfold OfficialArtwork at *
  generalize r.path ["Sprites", "Other", "OfficialArtwork"] = a at *
  cases a <;> simp [hasType] at h1
  next vs =>
  match vs, h1 with
  | [(m, x)], h2 =>
    simp only [fieldsHaveType, Bool.and_eq_true, decide_eq_true_eq] at h2
    obtain ⟨⟨hm, hx⟩, _⟩ := h2
    subst hm
    have := string_of_hasType x hx
    simp [GoValue.path, GoValue.field, List.lookup, ← this]
  | [], h2 => simp [fieldsHaveType] at h2
  | _ :: _ :: _, h2 => simp [fieldsHaveType] at h2

/-- The three lines of the handler, written out. -/
theorem report_eq (r : GoValue) (h : hasType Response r = true) :
    report r = ["name:  " ++ Name r, "pokemon#:  " ++ formatInt (Order r),
      "Artwork URL:  \x7b" ++ FrontDefault r ++ "\x7d"] := by
  have ha := officialArtwork_shape r h
  simp only [report, Println, formatStruct, ha, GoValue.fields, List.map, GoValue.getString,
    String.intercalate, String.intercalate.go]
  have e1 : ("name: " : String) ++ " " = "name:  " := by decide
  have e2 : ("pokemon#: " : String) ++ " " = "pokemon#:  " := by decide
  have e3 : ("Artwork URL: " : String) ++ " " ++ "\x7b" = "Artwork URL:  \x7b" := by decide
  rw [e1, e2, ← String.append_assoc, ← String.append_assoc, e3]

/-! ## The decoder, member by member -/

theorem decodeMembers_append (fo : String → Bool) (fields : List (String × String × GoType)) :
    ∀ (xs ys : List (String × JSONValue)) (cur : List (String × GoValue)),
      decodeMembers fo fields cur (xs ++ ys) =
        ((decodeMembers fo fields (decodeMembers fo fields cur xs).1 ys).1,
         (decodeMembers fo fields cur xs).2 ++
           (decodeMembers fo fields (decodeMembers fo fields cur xs).1 ys).2)
  | [], ys, cur => by simp [decodeMembers]
  | (k, x) :: xs, ys, cur => by
    have ih := decodeMembers_append fo fields xs ys
    cases hf : findField fields k with
    | none => simp [decodeMembers, hf, ih]
    | some f => simp [decodeMembers, hf, ih, List.append_assoc]

/-- A member whose key matches no field is skipped, wherever it stands. -/
theorem decodeMembers_skip (fo : String → Bool) (fields : List (String × String × GoType))
    (pre post : List (String × JSONValue)) (k : String) (x : JSONValue)
    (cur : List (String × GoValue)) (h : findField fields k = none) :
    decodeMembers fo fields cur (pre ++ (k, x) :: post) =
      decodeMembers fo fields cur (pre ++ post) := by
  rw [decodeMembers_append, decodeMembers_append]
  simp [decodeMembers, h]

theorem lookup_setField_ne (vs : List (String × GoValue)) (n m : String) (x : GoValue)
    (h : ¬ m = n) : (setField vs m x).lookup n = vs.lookup n := by
  induction vs with
  | nil => rfl
  | cons a vs ih =>
    obtain ⟨a1, a2⟩ := a
    by_cases ha : a1 = m
    · subst ha
      rw [setField_cons_eq]
      have hne : (n == a1) = false := beq_eq_false_iff_ne.mpr (fun e => h e.symm)
      simp [List.lookup, hne, ih]
    · rw [setField_cons_ne a1 m a2 x vs ha]
      cases hb : (n == a1) <;> simp [List.lookup, hb, ih]

theorem lookup_setField_eq (vs : List (String × GoValue)) (n : String) (x : GoValue) :
    (setField vs n x).lookup n = (vs.lookup n).map (fun _ => x) := by
  induction vs with
  | nil => rfl
  | cons a vs ih =>
    obtain ⟨a1, a2⟩ := a
    by_cases ha : a1 = n
    · subst ha
      rw [setField_cons_eq]
      simp [List.lookup]
    · rw [setField_cons_ne a1 n a2 x vs ha]
      have hne : (n == a1) = false := beq_eq_false_iff_ne.mpr (fun e => ha e.symm)
      simp [List.lookup, hne, ih]

/-! ## Decimal numerals -/

/-- The number a list of decimal digits denotes, starting from `a`. -/
theorem digitsValue_foldl (ds : List Char) (hd : ∀ c ∈ ds, c.isDigit = true) (a : Nat) :
    ds.foldl (fun acc c =>
      match acc with
      | none => none
      | some n => if c.isDigit then some (n * 10 + (c.toNat - 0x30)) else none) (some a)
    = some (ds.foldl (fun n c => n * 10 + (c.toNat - 0x30)) a) := by
  induction ds generalizing a with
  | nil => rfl
  | cons c cs ih =>
    have hc : c.isDigit = true := hd c (List.mem_cons_self _ _)
    simp only [List.foldl_cons, hc, if_true]
    exact ih (fun x hx => hd x (List.mem_cons_of_mem _ hx)) _

theorem foldl_digits_acc (ds : List Char) (a : Nat) :
    ds.foldl (fun n c => n * 10 + (c.toNat - 0x30)) a
      = a * 10 ^ ds.length + ds.foldl (fun n c => n * 10 + (c.toNat - 0x30)) 0 := by
  induction ds generalizing a with
  | nil => simp
  | cons c cs ih =>
    simp only [List.foldl_cons, List.length_cons]
    rw [ih (a * 10 + (c.toNat - 0x30)), ih (0 * 10 + (c.toNat - 0x30))]
    ring

theorem digitChar_isDigit (m : Nat) (h : m < 10) :
    (Nat.digitChar m).isDigit = true ∧ (Nat.digitChar m).toNat - 0x30 = m := by
  interval_cases m <;> decide

theorem toDigitsCore_spec (fuel : Nat) :
    ∀ (n : Nat) (ds : List Char), n < fuel → (∀ c ∈ ds, c.isDigit = true) →
      (∀ c ∈ Nat.toDigitsCore 10 fuel n ds, c.isDigit = true) ∧
      Nat.toDigitsCore 10 fuel n ds ≠ [] ∧
      (Nat.toDigitsCore 10 fuel n ds).foldl (fun n c => n * 10 + (c.toNat - 0x30)) 0
        = n * 10 ^ ds.length + ds.foldl (fun n c => n * 10 + (c.toNat - 0x30)) 0 := by
  induction fuel with
  | zero => intro n ds h; omega
  | succ fuel ih =>
    intro n ds hn hds
    have hd := digitChar_isDigit (n % 10) (Nat.mod_lt _ (by decide))
    have hds' : ∀ c ∈ Nat.digitChar (n % 10) :: ds, c.isDigit = true := by
      intro c hc
      rcases List.mem_cons.mp hc with rfl | hc
      · exact hd.1
      · exact hds c hc
    have hval : (Nat.digitChar (n % 10) :: ds).foldl (fun n c => n * 10 + (c.toNat - 0x30)) 0
        = (n % 10) * 10 ^ ds.length + ds.foldl (fun n c => n * 10 + (c.toNat - 0x30)) 0 := by
      simp only [List.foldl_cons]
      rw [foldl_digits_acc, hd.2]
      simp
    unfold Nat.toDigitsCore
    by_cases h0 : n / 10 = 0
    · simp only [h0, if_true]
      refine ⟨hds', by simp, ?_⟩
      rw [hval]
      have : n % 10 = n := by omega
      rw [this]
    · simp only [h0, if_false]
      have hlt : n / 10 < fuel := by omega
      obtain ⟨h1, h2, h3⟩ := ih (n / 10) (Nat.digitChar (n % 10) :: ds) hlt hds'
      refine ⟨h1, h2, ?_⟩
      rw [h3, hval, List.length_cons, pow_succ]
      generalize ds.foldl (fun n c => n * 10 + (c.toNat - 0x30)) 0 = V
      generalize 10 ^ ds.length = P
      have hn10 : n = 10 * (n / 10) + n % 10 := (Nat.div_add_mod n 10).symm
      generalize n / 10 = q at hn10
      generalize n % 10 = r at hn10
      subst hn10
      ring

/-- Reading back the decimal numeral of `k` gives `k`. -/
theorem digitsValue_repr (k : Nat) : digitsValue (Nat.repr k).data = some k := by
  obtain ⟨h1, h2, h3⟩ := toDigitsCore_spec (k + 1) k [] (by omega) (by simp)
  have hdata : (Nat.repr k).data = Nat.toDigitsCore 10 (k + 1) k [] := rfl
  unfold digitsValue
  rw [hdata]
  have hne : (Nat.toDigitsCore 10 (k + 1) k []).isEmpty = false := by
    cases h : Nat.toDigitsCore 10 (k + 1) k [] with
    | nil => exact absurd h h2
    | cons _ _ => rfl
  simp only [hne, Bool.false_eq_true, if_false]
  rw [digitsValue_foldl _ h1, h3]
  simp

/-- Go `strconv.ParseInt` on the decimal numeral of `k`: `k` when it fits in
64 bits, an error otherwise. -/
theorem parseInt64_repr (k : Nat) :
    parseInt64 (Nat.repr k) = if k < 2 ^ 63 then some (k : Int) else none := by
  obtain ⟨h1, h2, _⟩ := toDigitsCore_spec (k + 1) k [] (by omega) (by simp)
  have hdata : (Nat.repr k).data = Nat.toDigitsCore 10 (k + 1) k [] := rfl
  have hv := digitsValue_repr k
  unfold parseInt64
  split
  · next ds hds =>
    have : ('-' : Char).isDigit = true := h1 _ (by rw [← hdata, hds]; simp)
    exact absurd this (by decide)
  · next ds hds =>
    have : ('+' : Char).isDigit = true := h1 _ (by rw [← hdata, hds]; simp)
    exact absurd this (by decide)
  · simp only [hv]

theorem wf_name_unique :
    ∀ (fs : List (String × String × GoType)) (f g : String × String × GoType),
      wfFields fs = true → f ∈ fs → g ∈ fs → f.1 = g.1 → f = g
  | [], _, _, _, hf, _, _ => by simp at hf
  | (n, k, t) :: fs, f, g, hw, hf, hg, hfg => by
    simp only [wfFields, Bool.and_eq_true, Bool.not_eq_true', List.contains_eq_any_beq,
      List.any_eq_false, beq_iff_eq] at hw
    obtain ⟨⟨hnot, _⟩, hwfs⟩ := hw
    rcases List.mem_cons.mp hf with rfl | hf' <;> rcases List.mem_cons.mp hg with rfl | hg'
    · rfl
    · exact absurd hfg (hnot g.1 (List.mem_map_of_mem _ hg'))
    · exact absurd hfg.symm (hnot f.1 (List.mem_map_of_mem _ hf'))
    · exact wf_name_unique fs f g hwfs hf' hg' hfg

theorem decode_struct_obj (fo : String → Bool) (fs : List (String × String × GoType))
    (old : GoValue) (ms : List (String × JSONValue)) :
    decode fo (.struct fs) old (.obj ms) =
      (.struct (decodeMembers fo fs old.fields ms).1, (decodeMembers fo fs old.fields ms).2) := by
  simp [decode]

theorem decode_Response_obj (fo : String → Bool) (old : GoValue)
    (ms : List (String × JSONValue)) :
    decode fo Response old (.obj ms) =
      (.struct (decodeMembers fo Response.fields old.fields ms).1,
       (decodeMembers fo Response.fields old.fields ms).2) :=
  decode_struct_obj fo Response.fields old ms

/-! ## Keys that differ up to case -/

theorem equalFold_self (s : String) : equalFold s s = true := by
  simp [equalFold]

theorem equalFold_symm (a b : String) : equalFold a b = equalFold b a := by
  unfold equalFold
  rw [Bool.eq_iff_iff]
  simp only [beq_iff_eq]
  exact eq_comm

theorem equalFold_trans (a b c : String) (h1 : equalFold a b = true)
    (h2 : equalFold b c = true) : equalFold a c = true := by
  simp only [equalFold, beq_iff_eq] at *
  rw [h1, h2]

theorem find?_eq_none_of_forall {α : Type} (p : α → Bool) (l : List α)
    (h : ∀ x ∈ l, p x = false) : l.find? p = none := by
  rw [List.find?_eq_none]
  intro x hx
  simp [h x hx]

/-- In a struct whose keys differ up to case, two fields whose keys are equal
up to case are the same field. -/
theorem keysDistinct_unique :
    ∀ (fs : List (String × String × GoType)) (f g : String × String × GoType),
      keysDistinctFields fs = true → f ∈ fs → g ∈ fs → equalFold f.2.1 g.2.1 = true → f = g
  | [], _, _, _, hf, _, _ => by simp at hf
  | (n, k, t) :: fs, f, g, hk, hf, hg, hfg => by
    simp only [keysDistinctFields, Bool.and_eq_true, List.all_eq_true, Bool.not_eq_true'] at hk
    obtain ⟨⟨hnot, _⟩, hrest⟩ := hk
    rcases List.mem_cons.mp hf with rfl | hf' <;> rcases List.mem_cons.mp hg with rfl | hg'
    · rfl
    · have := hnot g hg'
      simp only at hfg
      rw [hfg] at this; cases this
    · have := hnot f hf'
      rw [equalFold_symm] at this
      simp only at hfg
      rw [hfg] at this; cases this
    · exact keysDistinct_unique fs f g hrest hf' hg' hfg

theorem keysDistinct_field :
    ∀ (fs : List (String × String × GoType)) (f : String × String × GoType),
      keysDistinctFields fs = true → f ∈ fs → keysDistinct f.2.2 = true
  | [], _, _, hf => by simp at hf
  | (n, k, t) :: fs, f, hk, hf => by
    simp only [keysDistinctFields, Bool.and_eq_true] at hk
    rcases List.mem_cons.mp hf with rfl | hf'
    · exact hk.1.2
    · exact keysDistinct_field fs f hk.2 hf'

theorem wf_field :
    ∀ (fs : List (String × String × GoType)) (f : String × String × GoType),
      wfFields fs = true → f ∈ fs → wfType f.2.2 = true
  | [], _, _, hf => by simp at hf
  | (n, k, t) :: fs, f, hk, hf => by
    simp only [wfFields, Bool.and_eq_true] at hk
    rcases List.mem_cons.mp hf with rfl | hf'
    · exact hk.1.2
    · exact wf_field fs f hk.2 hf'

/-- When the keys of a struct differ up to case, an object key is decoded
into the one field whose key equals it up to case. -/
theorem findField_eq_find (fs : List (String × String × GoType)) (k : String)
    (hk : keysDistinctFields fs = true) :
    findField fs k = fs.find? (fun f => equalFold f.2.1 k) := by
  unfold findField
  cases h1 : fs.find? (fun f => decide (f.2.1 = k)) with
  | none => rfl
  | some f =>
    simp only
    have hf := List.mem_of_find?_eq_some h1
    have hfk : f.2.1 = k := by simpa using List.find?_some h1
    cases h2 : fs.find? (fun f => equalFold f.2.1 k) with
    | none =>
      have := List.find?_eq_none.mp h2 f hf
      rw [hfk, equalFold_self] at this
      exact absurd rfl this
    | some g =>
      have hg := List.mem_of_find?_eq_some h2
      have hgk : equalFold g.2.1 k = true :=
        List.find?_some (p := fun (f : String × String × GoType) => equalFold f.2.1 k) h2
      rw [← hfk] at hgk
      rw [keysDistinct_unique fs g f hk hg hf hgk]

/-- The members decoded into a field are those whose key equals the field's
key up to case. -/
theorem routesTo_eq (fs : List (String × String × GoType)) (f : String × String × GoType)
    (k : String) (hw : wfFields fs = true) (hk : keysDistinctFields fs = true) (hf : f ∈ fs) :
    routesTo fs f.1 k = equalFold f.2.1 k := by
  unfold routesTo
  rw [findField_eq_find fs k hk]
  cases h2 : fs.find? (fun f => equalFold f.2.1 k) with
  | none =>
    have := List.find?_eq_none.mp h2 f hf
    simp only [Bool.not_eq_true] at this
    rw [this]
  | some g =>
    have hg := List.mem_of_find?_eq_some h2
    have hgk : equalFold g.2.1 k = true :=
        List.find?_some (p := fun (f : String × String × GoType) => equalFold f.2.1 k) h2
    simp only
    by_cases hn : g.1 = f.1
    · rw [← wf_name_unique fs g f hw hg hf hn, hgk]; simp [hn]
    · have : equalFold f.2.1 k = false := by
        cases hfk : equalFold f.2.1 k with
        | false => rfl
        | true =>
          have := equalFold_trans _ _ _ hgk (by rw [equalFold_symm]; exact hfk)
          exact absurd (congrArg (fun x => x.1) (keysDistinct_unique fs g f hk hg hf this)) hn
      rw [this]; simp [hn]

/-- The value a struct field ends up with: the members whose key equals the
field's key up to case are decoded into it one after the other. -/
theorem decodeMembers_field (fo : String → Bool) (fs : List (String × String × GoType))
    (f : String × String × GoType) (hw : wfFields fs = true)
    (hk : keysDistinctFields fs = true) (hf : f ∈ fs) :
    ∀ (ms : List (String × JSONValue)) (cur : List (String × GoValue)),
      (decodeMembers fo fs cur ms).1.lookup f.1 =
        (cur.lookup f.1).map (fun v0 =>
          decodeAll fo f.2.2 v0 ((ms.filter (fun m => equalFold f.2.1 m.1)).map (fun m => m.2)))
  | [], cur => by
    cases h : cur.lookup f.1 <;> simp [decodeMembers, decodeAll, h]
  | (k, x) :: ms, cur => by
    have hr := routesTo_eq fs f k hw hk hf
    cases hg : findField fs k with
    | none =>
      have : equalFold f.2.1 k = false := by rw [← hr]; simp [routesTo, hg]
      simp only [decodeMembers, hg, List.filter_cons, this]
      exact decodeMembers_field fo fs f hw hk hf ms cur
    | some g =>
      simp only [decodeMembers, hg]
      rw [decodeMembers_field fo fs f hw hk hf ms]
      by_cases hn : g.1 = f.1
      · have hgf : g = f := wf_name_unique fs g f hw (findField_mem fs k g hg) hf hn
        have : equalFold f.2.1 k = true := by rw [← hr]; simp [routesTo, hg, hn]
        subst hgf
        rw [lookup_setField_eq]
        simp only [List.filter_cons, this, if_true, List.map_cons]
        cases h : cur.lookup g.1 <;> simp [decodeAll, h]
      · have : equalFold f.2.1 k = false := by rw [← hr]; simp [routesTo, hg, hn]
        rw [lookup_setField_ne _ _ _ _ hn]
        simp only [List.filter_cons, this]
        rfl

theorem decodeAll_append (fo : String → Bool) (t : GoType) (old : GoValue)
    (xs ys : List JSONValue) :
    decodeAll fo t old (xs ++ ys) = decodeAll fo t (decodeAll fo t old xs) ys := by
  simp [decodeAll, List.foldl_append]

theorem decodeAll_typed (fo : String → Bool) (t : GoType) (hw : wfType t = true) :
    ∀ (xs : List JSONValue) (old : GoValue), hasType t old = true →
      hasType t (decodeAll fo t old xs) = true
  | [], old, h => by simpa [decodeAll] using h
  | x :: xs, old, h => by
    have := decodeAll_typed fo t hw xs _ (decode_typed fo x t old hw h)
    simpa [decodeAll] using this

/-- The value at a path of the decoded struct: the values that the document
gives to this field are decoded into it one after the other. -/
theorem decode_path (fo : String → Bool) :
    ∀ (p : List String) (ty : GoType) (old : GoValue) (j : JSONValue) (t : GoType),
      wfType ty = true → keysDistinct ty = true → hasType ty old = true →
      ty.path p = some t →
      (decode fo ty old j).1.path p = decodeAll fo t (old.path p) (valuesAt ty j p)
  | [], ty, old, j, t, _, _, _, ht => by
    simp only [GoType.path, Option.some.injEq] at ht
    subst ht
    simp [GoValue.path, valuesAt, decodeAll]
  | n :: ns, ty, old, j, t, hw, hk, ho, ht => by
    simp only [GoType.path] at ht
    cases hfld : ty.field n with
    | none => simp [hfld] at ht
    | some t1 =>
      simp only [hfld] at ht
      cases ty <;> simp only [GoType.field] at hfld <;> try cases hfld
      next fs =>
      cases hfind : fs.find? (fun g => g.1 = n) with
      | none => simp [hfind] at hfld
      | some f =>
        simp only [hfind, Option.map_some', Option.some.injEq] at hfld
        obtain ⟨hmem, hname⟩ := find_name_mem fs n f hfind
        have hwf : wfFields fs = true := by simpa [wfType] using hw
        have hkf : keysDistinctFields fs = true := by simpa [keysDistinct] using hk
        subst hfld
        have hw1 : wfType f.2.2 = true := wf_field fs f hwf hmem
        have hk1 : keysDistinct f.2.2 = true := keysDistinct_field fs f hkf hmem
        obtain ⟨v0, hv0, hty0, _⟩ := lookup_typed fs old.fields f hwf (fields_typed fs old ho) hmem
        have hold : old.path (n :: ns) = v0.path ns := by
          cases old <;> simp [hasType] at ho
          simp only [GoValue.fields] at hv0
          simp [GoValue.path, GoValue.field, ← hname, hv0]
        -- the members decoded into the field, one after the other
        have key : ∀ (xs : List JSONValue) (v : GoValue), hasType f.2.2 v = true →
            (decodeAll fo f.2.2 v xs).path ns =
              decodeAll fo t (v.path ns) (xs.flatMap (fun x => valuesAt f.2.2 x ns)) := by
          intro xs
          induction xs with
          | nil => intro v _; simp [decodeAll]
          | cons x xs ih =>
            intro v hv
            have h1 := decode_path fo ns f.2.2 v x t hw1 hk1 hv ht
            have h2 := ih (decode fo f.2.2 v x).1 (decode_typed fo x f.2.2 v hw1 hv)
            simp only [decodeAll, List.foldl_cons, List.flatMap_cons, List.foldl_append] at h2 ⊢
            rw [h2, h1]
            rfl
        cases j with
        | obj ms =>
          rw [decode_struct_obj]
          have hl := decodeMembers_field fo fs f hwf hkf hmem ms old.fields
          rw [hv0] at hl
          simp only [Option.map_some'] at hl
          rw [hname] at hl
          rw [hold]
          have hp : (GoValue.struct (decodeMembers fo fs old.fields ms).1).path (n :: ns)
              = (decodeAll fo f.2.2 v0 ((ms.filter (fun m => equalFold f.2.1 m.1)).map
                  (fun m => m.2))).path ns := by
            simp only [GoValue.path, GoValue.field, hl]
          rw [hp, key _ v0 hty0]
          simp only [valuesAt, hfind, List.flatMap_map]
        | null => simp [decode, valuesAt, decodeAll]
        | bool b => simp [decode, valuesAt, decodeAll]
        | str s => simp [decode, valuesAt, decodeAll]
        | num l => simp [decode, valuesAt, decodeAll]
        | arr xs => simp [decode, valuesAt, decodeAll]

/-! ## What a well-shaped value stands for is what the decoder stores -/

theorem mapSet_of_lookup_none (m : List (String × GoValue)) (k : String) (x : GoValue)
    (h : m.lookup k = none) : mapSet m k x = m ++ [(k, x)] := by
  induction m with
  | nil => rfl
  | cons e m ih =>
    obtain ⟨e1, e2⟩ := e
    by_cases he : k = e1
    · subst he; simp [List.lookup] at h
    · have hb : (k == e1) = false := beq_eq_false_iff_ne.mpr he
      simp only [List.lookup, hb] at h
      have hne : ¬ e1 = k := fun e => he e.symm
      simp [mapSet, hne, ih h]

mutual
theorem denote_valueInterface (fo : String → Bool) :
    ∀ (j : JSONValue) (y : GoValue), denote fo .iface j = some y → valueInterface fo j = (y, [])
  | .null, y, h => by
    simp only [denote, zero, Option.some.injEq] at h
    subst h; rfl
  | .bool b, y, h => by
    simp only [denote, Option.some.injEq] at h
    subst h; rfl
  | .str s, y, h => by
    simp only [denote, Option.some.injEq] at h
    subst h; rfl
  | .num lit, y, h => by
    simp only [denote] at h
    by_cases hf : fo lit = true
    · simp only [hf, if_true, Option.some.injEq] at h
      subst h
      simp [valueInterface, hf]
    · simp [hf] at h
  | .arr xs, y, h => by
    simp only [denote] at h
    cases hd : denoteElems fo .iface xs with
    | none => simp [hd] at h
    | some vs =>
      simp only [hd, Option.map_some', Option.some.injEq] at h
      subst h
      simp [valueInterface, denoteElems_arrayInterface fo xs vs hd]
  | .obj ms, y, h => by
    simp only [denote] at h
    cases hd : denoteEntries fo ms with
    | none => simp [hd] at h
    | some es =>
      simp only [hd, Option.map_some', Option.some.injEq] at h
      subst h
      simp [valueInterface, denoteEntries_objectInterface fo ms es [] hd (fun _ _ => rfl)]
theorem denoteElems_arrayInterface (fo : String → Bool) :
    ∀ (xs : List JSONValue) (vs : List GoValue),
      denoteElems fo .iface xs = some vs → arrayInterface fo xs = (vs, [])
  | [], vs, h => by
    simp only [denoteElems, Option.some.injEq] at h
    subst h; rfl
  | x :: xs, vs, h => by
    simp only [denoteElems] at h
    cases h1 : denote fo .iface x with
    | none => simp [h1] at h
    | some v =>
      cases h2 : denoteElems fo .iface xs with
      | none => simp [h1, h2] at h
      | some vs' =>
        simp only [h1, h2, Option.some.injEq] at h
        subst h
        simp [arrayInterface, denote_valueInterface fo x v h1,
          denoteElems_arrayInterface fo xs vs' h2]
theorem denoteEntries_objectInterface (fo : String → Bool) :
    ∀ (ms : List (String × JSONValue)) (es m : List (String × GoValue)),
      denoteEntries fo ms = some es →
      (∀ n, (es.lookup n).isSome = true → m.lookup n = none) →
      objectInterface fo m ms = (m ++ es, [])
  | [], es, m, h, _ => by
    simp only [denoteEntries, Option.some.injEq] at h
    subst h; simp [objectInterface]
  | (k, x) :: ms, es, m, h, hd => by
    simp only [denoteEntries] at h
    cases h1 : denote fo .iface x with
    | none => simp [h1] at h
    | some v =>
      cases h2 : denoteEntries fo ms with
      | none => simp [h1, h2] at h
      | some es' =>
        simp only [h1, h2] at h
        by_cases hl : (es'.lookup k).isSome = true
        · simp [hl] at h
        · simp only [hl, Bool.false_eq_true, if_false, Option.some.injEq] at h
          subst h
          have hk : m.lookup k = none := hd k (by simp [List.lookup])
          have hd' : ∀ n, (es'.lookup n).isSome = true →
              (m ++ [(k, v)]).lookup n = none := by
            intro n hn
            have hnk : ¬ n = k := fun e => hl (e ▸ hn)
            have hb : (n == k) = false := beq_eq_false_iff_ne.mpr hnk
            have hm : m.lookup n = none := hd n (by simp [List.lookup, hb, hn])
            simp [List.lookup_append, hm, List.lookup, hb]
          simp [objectInterface, denote_valueInterface fo x v h1, mapSet_of_lookup_none m k v hk,
            denoteEntries_objectInterface fo ms es' (m ++ [(k, v)]) h2 hd']
end

theorem zeroFields_eq_assemble (fs : List (String × String × GoType)) :
    zeroFields fs = assemble fs [] := by
  induction fs with
  | nil => rfl
  | cons f fs ih =>
    obtain ⟨n, k, t⟩ := f
    simp only [zeroFields, ih]
    simp [assemble, List.lookup]

theorem assemble_congr (fs : List (String × String × GoType)) (a b : List (String × GoValue))
    (h : ∀ n, a.lookup n = b.lookup n) : assemble fs a = assemble fs b := by
  simp [assemble, h]

theorem setField_assemble (fs : List (String × String × GoType)) (a : List (String × GoValue))
    (n : String) (v : GoValue) :
    setField (assemble fs a) n v = assemble fs ((n, v) :: a) := by
  simp only [setField, assemble, List.map_map]
  apply List.map_congr_left
  intro f _
  by_cases h : f.1 = n
  · simp [h, List.lookup]
  · have hb : (f.1 == n) = false := beq_eq_false_iff_ne.mpr h
    simp [h, List.lookup, hb]

theorem lookup_assemble :
    ∀ (fs : List (String × String × GoType)) (a : List (String × GoValue))
      (f : String × String × GoType), wfFields fs = true → f ∈ fs →
      (assemble fs a).lookup f.1 = some ((a.lookup f.1).getD (zero f.2.2))
  | [], _, _, _, hf => by simp at hf
  | (n, k, t) :: fs, a, f, hw, hf => by
    simp only [wfFields, Bool.and_eq_true, Bool.not_eq_true', List.contains_eq_any_beq,
      List.any_eq_false, beq_iff_eq] at hw
    obtain ⟨⟨hnot, _⟩, hwfs⟩ := hw
    rcases List.mem_cons.mp hf with rfl | hf'
    · simp [assemble, List.lookup]
    · have hne : (f.1 == n) = false := by
        have : f.1 ∈ fs.map (fun g => g.1) := List.mem_map_of_mem _ hf'
        have h2 := hnot f.1 this
        exact beq_eq_false_iff_ne.mpr (fun e => h2 e.symm)
      have ih := lookup_assemble fs a f hwfs hf'
      simp only [assemble] at ih
      simp [assemble, List.lookup, hne, ih]

mutual
/-- A JSON value of the shape of a type is decoded, into a fresh variable of
that type, to the Go value it stands for, and no error is reported. -/
theorem denote_decode (fo : String → Bool) :
    ∀ (j : JSONValue) (ty : GoType) (y : GoValue),
      wfType ty = true → keysDistinct ty = true → denote fo ty j = some y →
      decode fo ty (zero ty) j = (y, [])
  | .null, ty, y, _, _, h => by
    simp only [denote, Option.some.injEq] at h
    subst h
    cases ty <;> simp [decode, zero]
  | .bool b, ty, y, _, _, h => by
    cases ty <;> simp [denote] at h <;> subst h <;> simp [decode]
  | .str s, ty, y, _, _, h => by
    cases ty <;> simp [denote] at h <;> subst h <;> simp [decode]
  | .num lit, ty, y, _, _, h => by
    cases ty <;> simp only [denote] at h <;> try cases h
    · cases hp : parseInt64 lit with
      | none => simp [hp] at h
      | some n =>
        simp only [hp, Option.map_some', Option.some.injEq] at h
        subst h
        simp [decode, hp]
    · by_cases hf : fo lit = true
      · simp only [hf, if_true, Option.some.injEq] at h
        subst h
        simp [decode, hf]
      · simp [hf] at h
  | .arr xs, ty, y, hw, hk, h => by
    cases ty <;> simp only [denote] at h <;> try cases h
    · cases hd : denoteElems fo .iface xs with
      | none => simp [hd] at h
      | some vs =>
        simp only [hd, Option.map_some', Option.some.injEq] at h
        subst h
        simp [decode, denoteElems_arrayInterface fo xs vs hd]
    · next elem =>
      cases hd : denoteElems fo elem xs with
      | none => simp [hd] at h
      | some vs =>
        simp only [hd, Option.map_some', Option.some.injEq] at h
        subst h
        have ih := denoteElems_decode fo xs elem vs (by simpa [wfType] using hw)
          (by simpa [keysDistinct] using hk) hd
        cases xs with
        | nil =>
          simp only [denoteElems, Option.some.injEq] at hd
          subst hd
          simp [decode]
        | cons x xs' =>
          simp only [decode, zero, GoValue.backing]
          rw [ih]
  | .obj ms, ty, y, hw, hk, h => by
    cases ty <;> simp only [denote] at h <;> try cases h
    · cases hd : denoteEntries fo ms with
      | none => simp [hd] at h
      | some es =>
        simp only [hd, Option.map_some', Option.some.injEq] at h
        subst h
        simp [decode, denoteEntries_objectInterface fo ms es [] hd (fun _ _ => rfl)]
    · next fs =>
      cases hd : denoteMembers fo fs ms with
      | none => simp [hd] at h
      | some a =>
        simp only [hd, Option.map_some', Option.some.injEq] at h
        subst h
        have ih := denoteMembers_decode fo ms fs a [] (by simpa [wfType] using hw)
          (by simpa [keysDistinct] using hk) hd (fun _ _ => rfl)
        simp only [decode, zero, GoValue.fields, zeroFields_eq_assemble]
        rw [ih]
        simp
theorem denoteElems_decode (fo : String → Bool) :
    ∀ (xs : List JSONValue) (t : GoType) (vs : List GoValue),
      wfType t = true → keysDistinct t = true → denoteElems fo t xs = some vs →
      decodeElems fo t [] xs = (vs, [], [])
  | [], t, vs, _, _, h => by
    simp only [denoteElems, Option.some.injEq] at h
    subst h; rfl
  | x :: xs, t, vs, hw, hk, h => by
    simp only [denoteElems] at h
    cases h1 : denote fo t x with
    | none => simp [h1] at h
    | some v =>
      cases h2 : denoteElems fo t xs with
      | none => simp [h1, h2] at h
      | some vs' =>
        simp only [h1, h2, Option.some.injEq] at h
        subst h
        simp [decodeElems, denote_decode fo x t v hw hk h1,
          denoteElems_decode fo xs t vs' hw hk h2]
theorem denoteMembers_decode (fo : String → Bool) :
    ∀ (ms : List (String × JSONValue)) (fs : List (String × String × GoType))
      (a a0 : List (String × GoValue)),
      wfFields fs = true → keysDistinctFields fs = true → denoteMembers fo fs ms = some a →
      (∀ n, (a.lookup n).isSome = true → a0.lookup n = none) →
      decodeMembers fo fs (assemble fs a0) ms = (assemble fs (a ++ a0), [])
  | [], fs, a, a0, _, _, h, _ => by
    simp only [denoteMembers, Option.some.injEq] at h
    subst h; simp [decodeMembers]
  | (k, x) :: ms, fs, a, a0, hw, hk, h, hd => by
    simp only [denoteMembers] at h
    simp only [decodeMembers, findField_eq_find fs k hk]
    cases hf : fs.find? (fun f => equalFold f.2.1 k) with
    | none =>
      simp only [hf] at h
      exact denoteMembers_decode fo ms fs a a0 hw hk h hd
    | some f =>
      simp only [hf] at h
      have hmem : f ∈ fs := List.mem_of_find?_eq_some hf
      cases h1 : denote fo f.2.2 x with
      | none => simp [h1] at h
      | some v =>
        cases h2 : denoteMembers fo fs ms with
        | none => simp [h1, h2] at h
        | some a' =>
          simp only [h1, h2] at h
          by_cases hl : (a'.lookup f.1).isSome = true
          · simp [hl] at h
          · simp only [hl, Bool.false_eq_true, if_false, Option.some.injEq] at h
            subst h
            have h0 : a0.lookup f.1 = none := hd f.1 (by simp [List.lookup])
            have hd' : ∀ n, (a'.lookup n).isSome = true →
                ((f.1, v) :: a0).lookup n = none := by
              intro n hn
              have hnk : ¬ n = f.1 := fun e => hl (e ▸ hn)
              have hb : (n == f.1) = false := beq_eq_false_iff_ne.mpr hnk
              have hm : a0.lookup n = none := hd n (by simp [List.lookup, hb, hn])
              simp [List.lookup, hb, hm]
            have ih := denoteMembers_decode fo ms fs a' ((f.1, v) :: a0) hw hk h2 hd'
            have hdec := denote_decode fo x f.2.2 v (wf_field fs f hw hmem)
              (keysDistinct_field fs f hk hmem) h1
            simp only [lookup_assemble fs a0 f hw hmem, h0, Option.getD_some, Option.getD_none,
              hdec, setField_assemble, ih, List.nil_append]
            congr 1
            apply assemble_congr
            intro n
            by_cases hn : n = f.1
            · subst hn
              have : a'.lookup f.1 = none := by
                cases hh : a'.lookup f.1 with
                | none => rfl
                | some z => simp [hh] at hl
              simp [List.lookup_append, List.lookup, this]
            · have hb : (n == f.1) = false := beq_eq_false_iff_ne.mpr hn
              simp [List.lookup_append, List.lookup, hb]
end

/-! ## `getPokemon` and the handler -/

theorem Unmarshal_syntaxError (fo : String → Bool) (body : List UInt8) (ty : GoType)
    (v : GoValue) (h : parseJSON body = none) :
    Unmarshal fo body ty v = (v, some .syntaxError) := by
  simp [Unmarshal, h]

theorem Unmarshal_parsed (fo : String → Bool) (body : List UInt8) (ty : GoType)
    (v : GoValue) (j : JSONValue) (h : parseJSON body = some j) :
    Unmarshal fo body ty v = ((decode fo ty v j).1, (decode fo ty v j).2.head?) := by
  simp [Unmarshal, h]

/-- The fragment of the URL of `getPokemon` is the fragment of the identifier. -/
theorem beforeFragment_endpoint (s : String) :
    beforeFragment (endpoint s) = endpoint (beforeFragment s) := by
  unfold beforeFragment endpoint
  apply String.ext
  simp only [String.data_append]
  rw [List.takeWhile_append_of_pos (by decide)]

/-- The fixed part of the URL has no control character. -/
theorem stringContainsCTLByte_endpoint (s : String) :
    stringContainsCTLByte (endpoint s) = stringContainsCTLByte s := by
  unfold stringContainsCTLByte endpoint utf8
  simp only [String.data_append, List.flatMap_append, List.any_append]
  have : (("https://pokeapi.co/api/v2/pokemon/" : String).data.flatMap String.utf8EncodeChar).any
      (fun b => decide (b < 0x20) || b == 0x7f) = false := by decide
  rw [this, Bool.false_or]

/-- When `http.Get` returns a response, the URL has passed the check and the
response is the one of the network. -/
theorem http_Get_returned (w : World) (url : String) (resp : HTTPResponse)
    (h : (http.Get w url).result = .returned (.ok resp)) :
    stringContainsCTLByte (beforeFragment url) = false ∧ (w.transport url).outcome = .ok resp := by
  unfold http.Get at h
  cases hc : stringContainsCTLByte (beforeFragment url) with
  | true => simp [hc] at h
  | false =>
    simp only [hc, Bool.false_eq_true, if_false, Result.returned.injEq] at h
    exact ⟨rfl, h⟩

/-- What `getPokemon` does once the server has answered with a body. -/
theorem getPokemon_of_body (w : World) (a : String) (status : Nat) (body : List UInt8)
    (hget : (http.Get w (endpoint a)).result
      = .returned (.ok { statusCode := status, body := .ok body })) :
    getPokemon w a =
      { requests := [endpoint a],
        gets := (w.transport (endpoint a)).gets,
        stdout :=
          if (Unmarshal w.floatOk body Response (zero Response)).2.isSome then
            ["Can not unmarshal JSON"]
          else [],
        log := [],
        result := .returned (Unmarshal w.floatOk body Response (zero Response)).1 } := by
  obtain ⟨hc, ho⟩ := http_Get_returned w _ _ hget
  unfold getPokemon http.Get
  simp only [hc, Bool.false_eq_true, if_false, ho, Effect.bind]
  cases h : (Unmarshal w.floatOk body Response (zero Response)).2 with
  | none => simp [Effect.pure]
  | some e =>
    simp [Effect.pure, fmt.Println, Println, String.intercalate, String.intercalate.go]

/-- What the handler prints after `getPokemon` has returned. -/
theorem getCmd_Run_of_returned (w : World) (a : String) (rest : List String) (r : GoValue)
    (h : (getPokemon w a).result = .returned r) :
    getCmd.Run w (a :: rest) =
      { requests := (getPokemon w a).requests,
        gets := (getPokemon w a).gets,
        stdout := (getPokemon w a).stdout ++ report r,
        log := (getPokemon w a).log,
        result := .returned () } := by
  simp [getCmd.Run, Effect.bind, h, fmt.Println, report]

/-- What the handler does once the server has answered with a body. -/
theorem getCmd_Run_of_body (w : World) (a : String) (rest : List String) (status : Nat)
    (body : List UInt8)
    (hget : (http.Get w (endpoint a)).result
      = .returned (.ok { statusCode := status, body := .ok body })) :
    getCmd.Run w (a :: rest) =
      { requests := [endpoint a],
        gets := (w.transport (endpoint a)).gets,
        stdout :=
          (if (Unmarshal w.floatOk body Response (zero Response)).2.isSome then
            ["Can not unmarshal JSON"]
          else []) ++ report (Unmarshal w.floatOk body Response (zero Response)).1,
        log := [],
        result := .returned () } := by
  have h := getPokemon_of_body w a status body hget
  rw [getCmd_Run_of_returned w a rest _ (by rw [h]), h]

/-- A URL with a control character before its fragment: `http.Get` returns
the error of `url.Parse`, and nothing is sent. -/
theorem http_Get_of_control (w : World) (url : String)
    (hc : stringContainsCTLByte (beforeFragment url) = true) :
    http.Get w url =
      { requests := [url], gets := 0, stdout := [], log := [],
        result := .returned (.error (.urlError "parse" (beforeFragment url)
          "net/url: invalid control character in URL")) } := by
  unfold http.Get
  rw [if_pos hc]

/-- A URL without such a character goes to the network. -/
theorem http_Get_of_plain (w : World) (url : String)
    (hc : stringContainsCTLByte (beforeFragment url) = false) :
    http.Get w url =
      { requests := [url], gets := (w.transport url).gets, stdout := [], log := [],
        result := .returned (w.transport url).outcome } := by
  unfold http.Get
  rw [if_neg (by simp [hc])]

/-- What `getPokemon` does after `http.Get`, by what the network answers. -/
theorem getPokemon_of_plain (w : World) (s : String)
    (hc : stringContainsCTLByte (beforeFragment (endpoint s)) = false) :
    (getPokemon w s).requests = [endpoint s] ∧
    (getPokemon w s).gets = (w.transport (endpoint s)).gets ∧
    ∀ msg, (getPokemon w s).result ≠ .panic msg := by
  unfold getPokemon
  rw [http_Get_of_plain w _ hc]
  simp only [Effect.bind]
  cases (w.transport (endpoint s)).outcome with
  | error e => simp [log.Fatalf]
  | ok resp =>
    obtain ⟨status, b⟩ := resp
    cases b with
    | error e => simp [log.Fatalln]
    | ok body =>
      simp only
      cases (Unmarshal w.floatOk body Response (zero Response)).2 <;>
        simp [Effect.pure, fmt.Println]

/-- A URL with a control character before its fragment is rejected by
`http.Get`: nothing is sent, and `getPokemon` ends the process. -/
theorem getPokemon_of_control (w : World) (s : String)
    (hc : stringContainsCTLByte (beforeFragment s) = true) :
    getPokemon w s =
      { requests := [endpoint s], gets := 0, stdout := [],
        log := [.fatalf "An Error Occured %v"
          (.urlError "parse" (endpoint (beforeFragment s))
            "net/url: invalid control character in URL")],
        result := .fatal } := by
  have h : stringContainsCTLByte (beforeFragment (endpoint s)) = true := by
    rw [beforeFragment_endpoint, stringContainsCTLByte_endpoint, hc]
  unfold getPokemon
  rw [http_Get_of_control w _ h, beforeFragment_endpoint]
  simp [Effect.bind, log.Fatalf]

/-- A URL without such a character goes to the network. -/
theorem getPokemon_gets (w : World) (s : String)
    (hc : stringContainsCTLByte (beforeFragment s) = false) :
    (getPokemon w s).gets = (w.transport (endpoint s)).gets :=
  (getPokemon_of_plain w s (by
    rw [beforeFragment_endpoint, stringContainsCTLByte_endpoint, hc])).2.1

/-- The function `getPokemon` itself never panics. -/
theorem getPokemon_no_panic (w : World) (a : String) (msg : String) :
    (getPokemon w a).result ≠ .panic msg := by
  cases hc : stringContainsCTLByte (beforeFragment (endpoint a)) with
  | false => exact (getPokemon_of_plain w a hc).2.2 msg
  | true =>
    rw [beforeFragment_endpoint, stringContainsCTLByte_endpoint] at hc
    rw [getPokemon_of_control w a hc]
    simp

/-- The function `getPokemon` calls `http.Get` once, with the URL of its argument. -/
theorem getPokemon_requests (w : World) (s : String) : (getPokemon w s).requests = [endpoint s] := by
  cases hc : stringContainsCTLByte (beforeFragment (endpoint s)) with
  | false => exact (getPokemon_of_plain w s hc).1
  | true =>
    rw [beforeFragment_endpoint, stringContainsCTLByte_endpoint] at hc
    rw [getPokemon_of_control w s hc]

/-! ## Paths -/

theorem wfType_Response : wfType Response = true := by decide!

theorem keysDistinct_Response : keysDistinct Response = true := by decide!

theorem zero_fields (fs : List (String × String × GoType)) :
    (zero (.struct fs)).fields = assemble fs [] := by
  simp [zero, GoValue.fields, zeroFields_eq_assemble]

/-- The zero value of a struct holds zero values at every path. -/
theorem zero_path : ∀ (p : List String) (ty t : GoType),
    wfType ty = true → ty.path p = some t → (zero ty).path p = zero t
  | [], ty, t, _, ht => by
    simp only [GoType.path, Option.some.injEq] at ht
    subst ht; rfl
  | n :: ns, ty, t, hw, ht => by
    simp only [GoType.path] at ht
    cases hfld : ty.field n with
    | none => simp [hfld] at ht
    | some t1 =>
      simp only [hfld] at ht
      cases ty <;> simp only [GoType.field] at hfld <;> try cases hfld
      next fs =>
      cases hfind : fs.find? (fun g => g.1 = n) with
      | none => simp [hfind] at hfld
      | some f =>
        simp only [hfind, Option.map_some', Option.some.injEq] at hfld
        subst hfld
        obtain ⟨hmem, hname⟩ := find_name_mem fs n f hfind
        have hwf : wfFields fs = true := by simpa [wfType] using hw
        have hl := lookup_assemble fs [] f hwf hmem
        rw [hname] at hl
        simp only [zero, GoValue.path, GoValue.field, zeroFields_eq_assemble, hl]
        simpa [List.lookup] using zero_path ns f.2.2 t (wf_field fs f hwf hmem) ht

/-- The type a path leads to is as well-formed as the type it starts from. -/
theorem path_wf : ∀ (p : List String) (ty t : GoType),
    wfType ty = true → keysDistinct ty = true → ty.path p = some t →
    wfType t = true ∧ keysDistinct t = true
  | [], ty, t, hw, hk, ht => by
    simp only [GoType.path, Option.some.injEq] at ht
    subst ht; exact ⟨hw, hk⟩
  | n :: ns, ty, t, hw, hk, ht => by
    simp only [GoType.path] at ht
    cases hfld : ty.field n with
    | none => simp [hfld] at ht
    | some t1 =>
      simp only [hfld] at ht
      cases ty <;> simp only [GoType.field] at hfld <;> try cases hfld
      next fs =>
      cases hfind : fs.find? (fun g => g.1 = n) with
      | none => simp [hfind] at hfld
      | some f =>
        simp only [hfind, Option.map_some', Option.some.injEq] at hfld
        subst hfld
        obtain ⟨hmem, _⟩ := find_name_mem fs n f hfind
        exact path_wf ns f.2.2 t (wf_field fs f (by simpa [wfType] using hw) hmem)
          (keysDistinct_field fs f (by simpa [keysDistinct] using hk) hmem) ht

/-- The values a document gives to a top-level field. -/
theorem valuesAt_field (fs : List (String × String × GoType)) (n : String)
    (f : String × String × GoType) (ms : List (String × JSONValue))
    (hfind : fs.find? (fun g => g.1 = n) = some f) :
    valuesAt (.struct fs) (.obj ms) [n]
      = (ms.filter (fun m => equalFold f.2.1 m.1)).map (fun m => m.2) := by
  simp only [valuesAt, hfind]
  induction ms.filter (fun m => equalFold f.2.1 m.1) with
  | nil => rfl
  | cons m l ih => simp [List.flatMap_cons, ih]

/-- The last value decoded into a variable is decoded after all the others. -/
theorem decodeAll_getLast (fo : String → Bool) (t : GoType) (old : GoValue)
    (xs : List JSONValue) (x : JSONValue) (h : xs.getLast? = some x) :
    decodeAll fo t old xs = (decode fo t (decodeAll fo t old xs.dropLast) x).1 := by
  obtain ⟨L, hL⟩ := List.getLast?_eq_some_iff.mp h
  subst hL
  simp [decodeAll, List.foldl_append]

/-- The value at a path of the Response decoded from an object. -/
theorem Response_path (fo : String → Bool) (j : JSONValue) (p : List String) (t : GoType)
    (ht : Response.path p = some t) :
    (decode fo Response (zero Response) j).1.path p
      = decodeAll fo t (zero t) (valuesAt Response j p) := by
  rw [decode_path fo p Response (zero Response) j t wfType_Response keysDistinct_Response
    (hasType_zero Response) ht, zero_path p Response t wfType_Response ht]

theorem getLast?_map {α β : Type} (f : α → β) (l : List α) (a : α)
    (h : l.getLast? = some a) : (l.map f).getLast? = some (f a) := by
  obtain ⟨L, hL⟩ := List.getLast?_eq_some_iff.mp h
  subst hL
  simp

/-- The last member whose key equals `name` up to case, when it is a string,
is the `Name` of the result, whatever the other members are. -/
theorem Name_of_last (fo : String → Bool) (ms : List (String × JSONValue)) (kn n : String)
    (h : (ms.filter (fun m => equalFold "name" m.1)).getLast? = some (kn, .str n)) :
    Name (decode fo Response (zero Response) (.obj ms)).1 = n := by
  unfold Name
  rw [Response_path fo (.obj ms) ["Name"] .string rfl]
  have hv : valuesAt Response (.obj ms) ["Name"]
      = (ms.filter (fun m => equalFold "name" m.1)).map (fun m => m.2) :=
    valuesAt_field Response.fields "Name" ("Name", "name", .string) ms rfl
  rw [hv, decodeAll_getLast fo _ _ _ (.str n) (getLast?_map (fun m => m.2) _ _ h)]
  simp [decode, GoValue.getString]

/-- The last member whose key equals `order` up to case, when it is the
decimal numeral of a number below 2^63, is the `Order` of the result. -/
theorem Order_of_last (fo : String → Bool) (ms : List (String × JSONValue)) (ko : String)
    (k : Nat) (hk : k < 2 ^ 63)
    (h : (ms.filter (fun m => equalFold "order" m.1)).getLast?
      = some (ko, .num (Nat.repr k))) :
    Order (decode fo Response (zero Response) (.obj ms)).1 = (k : Int) := by
  unfold Order
  rw [Response_path fo (.obj ms) ["Order"] .int rfl]
  have hv : valuesAt Response (.obj ms) ["Order"]
      = (ms.filter (fun m => equalFold "order" m.1)).map (fun m => m.2) :=
    valuesAt_field Response.fields "Order" ("Order", "order", .int) ms rfl
  rw [hv, decodeAll_getLast fo _ _ _ (.num (Nat.repr k)) (getLast?_map (fun m => m.2) _ _ h)]
  have hp : parseInt64 (Nat.repr k) = some (k : Int) := by rw [parseInt64_repr, if_pos hk]
  simp [decode, hp, GoValue.getInt]

/-- A field that the document binds once, to a value of the shape of its
type, holds what that value stands for. -/
theorem Response_path_denote (fo : String → Bool) (j : JSONValue) (p : List String)
    (t : GoType) (x : JSONValue) (y : GoValue) (ht : Response.path p = some t)
    (hx : valuesAt Response j p = [x]) (hy : denote fo t x = some y) :
    (decode fo Response (zero Response) j).1.path p = y := by
  obtain ⟨hw, hk⟩ := path_wf p Response t wfType_Response keysDistinct_Response ht
  rw [Response_path fo j p t ht, hx]
  simp [decodeAll, denote_decode fo x t y hw hk hy]

/-! ## `null` and the empty string -/

theorem decodeAll_null_iface (fo : String → Bool) :
    ∀ (xs : List JSONValue), (∀ x ∈ xs, x = .null) →
      decodeAll fo .iface .nilIface xs = .nilIface
  | [], _ => rfl
  | x :: xs, h => by
    have hx : x = .null := h x (List.mem_cons_self _ _)
    subst hx
    have := decodeAll_null_iface fo xs (fun y hy => h y (List.mem_cons_of_mem _ hy))
    simpa [decodeAll, decode] using this

theorem decodeAll_null_string (fo : String → Bool) (v : GoValue) :
    ∀ (xs : List JSONValue), (∀ x ∈ xs, x = .null) → decodeAll fo .string v xs = v
  | [], _ => rfl
  | x :: xs, h => by
    have hx : x = .null := h x (List.mem_cons_self _ _)
    subst hx
    have := decodeAll_null_string fo v xs (fun y hy => h y (List.mem_cons_of_mem _ hy))
    simpa [decodeAll, decode] using this

theorem decodeAll_str (fo : String → Bool) (t : GoType) (ht : t = .iface ∨ t = .string)
    (v : GoValue) (s : String) (xs : List JSONValue) (hne : xs ≠ [])
    (h : ∀ x ∈ xs, x = .str s) : decodeAll fo t v xs = .str s := by
  cases hl : xs.getLast? with
  | none => exact absurd (List.getLast?_eq_none_iff.mp hl) hne
  | some x =>
    have hx : x = .str s := by
      obtain ⟨L, hL⟩ := List.getLast?_eq_some_iff.mp hl
      exact h x (by rw [hL]; simp)
    subst hx
    rw [decodeAll_getLast fo t v xs _ hl]
    rcases ht with rfl | rfl <;> simp [decode]

theorem isNilSlice_eq (v : GoValue) (h : v.isNilSlice = true) : v = .nilSlice := by
  cases v <;> simp [GoValue.isNilSlice] at h
  rfl

theorem isStr_eq (s : String) (v : GoValue) (h : v.isStr s = true) : v = .str s := by
  cases v <;> simp [GoValue.isStr] at h
  rw [h]

theorem isNull_eq (x : JSONValue) (h : x.isNull = true) : x = .null := by
  cases x <;> simp [JSONValue.isNull] at h
  rfl

theorem isStrJSON_eq (s : String) (x : JSONValue) (h : x.isStr s = true) : x = .str s := by
  cases x <;> simp [JSONValue.isStr] at h
  rw [h]

theorem isIface_eq (t : GoType) (h : t.isIface = true) : t = .iface := by
  cases t <;> simp [GoType.isIface] at h
  rfl

theorem isString_eq (t : GoType) (h : t.isString = true) : t = .string := by
  cases t <;> simp [GoType.isString] at h
  rfl

/-- Every sprite field is declared `interface{}` or `string`, and the path of
Go field names leads to it from `Response`. -/
theorem sprite_leaf (p : List String) (t : GoType) (hp : (p, t) ∈ leafFields SpritesType) :
    Response.path ("Sprites" :: p) = some t ∧ (t = .iface ∨ t = .string) := by
  have hall : (leafFields SpritesType).all (fun q =>
      match Response.path ("Sprites" :: q.1) with
      | some t' => (t'.isIface && q.2.isIface) || (t'.isString && q.2.isString)
      | none => false) = true := by decide!
  have h := List.all_eq_true.mp hall (p, t) hp
  simp only at h
  cases hpath : Response.path ("Sprites" :: p) with
  | none => simp [hpath] at h
  | some t' =>
    simp only [hpath, Bool.or_eq_true, Bool.and_eq_true] at h
    rcases h with ⟨h1, h2⟩ | ⟨h1, h2⟩
    · rw [isIface_eq _ h1, isIface_eq _ h2]; exact ⟨rfl, Or.inl rfl⟩
    · rw [isString_eq _ h1, isString_eq _ h2]; exact ⟨rfl, Or.inr rfl⟩

/-! # The claims -/

/-- C7, refuted at the identifier `a\nb` (a line feed between the letters):
`getPokemon` hands the URL with the line feed to `http.Get`, which rejects
it before anything is sent, so no GET is issued at all and the process exits
through `log.Fatalf`; the same server is sent one GET for `ditto`. -/
theorem C7_counterexample :
    (getPokemon (stubServer 200 dittoFixture) "a\nb").requests
      = ["https://pokeapi.co/api/v2/pokemon/a\nb"] ∧
    (getPokemon (stubServer 200 dittoFixture) "a\nb").gets = 0 ∧
    (getPokemon (stubServer 200 dittoFixture) "a\nb").result = .fatal ∧
    (getPokemon (stubServer 200 dittoFixture) "ditto").gets = 1 :=
  ⟨by decide, by decide, rfl, by decide⟩

/-- C7, amended: for every identifier `s`, `getPokemon` calls `http.Get`
exactly once, and its argument is the fixed prefix followed by `s` unchanged
(no validation and no escaping by `getPokemon`).  A GET is not always issued:
when `s` has a control character (a byte below `0x20`, or `0x7f`) before its
first `#`, `http.Get` rejects the URL, no request is sent, nothing is printed
and the process exits through `log.Fatalf` with the error of `url.Parse`; for
every other `s` the URL goes to the network layer unchanged, and how many
requests are sent is up to `net/http`. -/
theorem C7_identifier_reaches_http_Get_verbatim (w : World) (s : String) :
    endpoint s = "https://pokeapi.co/api/v2/pokemon/" ++ s ∧
    (getPokemon w s).requests = ["https://pokeapi.co/api/v2/pokemon/" ++ s] ∧
    (stringContainsCTLByte (beforeFragment s) = true →
      (getPokemon w s).gets = 0 ∧
      (getPokemon w s).stdout = [] ∧
      (getPokemon w s).log = [.fatalf "An Error Occured %v"
        (.urlError "parse" ("https://pokeapi.co/api/v2/pokemon/" ++ beforeFragment s)
          "net/url: invalid control character in URL")] ∧
      (getPokemon w s).result = .fatal) ∧
    (stringContainsCTLByte (beforeFragment s) = false →
      (getPokemon w s).gets
        = (w.transport ("https://pokeapi.co/api/v2/pokemon/" ++ s)).gets) := by
  refine ⟨rfl, getPokemon_requests w s, ?_, getPokemon_gets w s⟩
  intro hc
  rw [getPokemon_of_control w s hc]
  exact ⟨rfl, rfl, rfl, rfl⟩

/-- C7 amended, at the identifier `a\nb` (rejected, nothing sent) and at
`a b/c?x=1#frag` (no control character before the fragment: the string goes
to the network as it is). -/
theorem C7_identifier_reaches_http_Get_verbatim_witness :
    (stringContainsCTLByte (beforeFragment "a\nb") = true ∧
      (getPokemon (stubServer 200 dittoFixture) "a\nb").gets = 0 ∧
      (getPokemon (stubServer 200 dittoFixture) "a\nb").result = .fatal) ∧
    (stringContainsCTLByte (beforeFragment "a b/c?x=1#frag") = false ∧
      (getPokemon (stubServer 200 dittoFixture) "a b/c?x=1#frag").requests
        = ["https://pokeapi.co/api/v2/pokemon/" ++ "a b/c?x=1#frag"]) :=
  ⟨⟨by decide,
    ((C7_identifier_reaches_http_Get_verbatim (stubServer 200 dittoFixture) "a\nb").2.2.1
      (by decide)).1,
    ((C7_identifier_reaches_http_Get_verbatim (stubServer 200 dittoFixture) "a\nb").2.2.1
      (by decide)).2.2.2⟩,
   ⟨by decide,
    (C7_identifier_reaches_http_Get_verbatim (stubServer 200 dittoFixture)
      "a b/c?x=1#frag").2.1⟩⟩

/-- C10: the handler reads `args[0]` without checking the number of
arguments.  With at least one argument it looks up the first one and ignores
the rest: the run for `a :: rest` is the run for `[a]`, and its one request is
for `a`.  The index access panics exactly when the argument list is empty. -/
theorem C10_handler_uses_first_argument_only (w : World) :
    (∀ (a : String) (rest : List String),
      getCmd.Run w (a :: rest) = getCmd.Run w [a] ∧
      (getCmd.Run w (a :: rest)).requests = [endpoint a]) ∧
    (∀ args : List String,
      (getCmd.Run w args).result
          = .panic "runtime error: index out of range [0] with length 0" ↔ args = []) := by
  constructor
  · intro a rest
    refine ⟨rfl, ?_⟩
    have h := (getPokemon_requests w a)
    cases hr : (getPokemon w a).result with
    | returned r => rw [getCmd_Run_of_returned w a rest r hr, h]
    | fatal => simp [getCmd.Run, Effect.bind, hr, h]
    | panic msg => simp [getCmd.Run, Effect.bind, hr, h]
  · intro args
    cases args with
    | nil => simp [getCmd.Run]
    | cons a rest =>
      have hp := getPokemon_no_panic w a
      cases hr : (getPokemon w a).result with
      | returned r => rw [getCmd_Run_of_returned w a rest r hr]; simp
      | fatal => simp [getCmd.Run, Effect.bind, hr]
      | panic msg => exact absurd hr (hp msg)

/-- C1: for the Response `r` that `getPokemon` returns, the handler prints
exactly three lines, in this order: `name:  ` followed by `r.Name`,
`pokemon#:  ` followed by `r.Order` in decimal, and `Artwork URL:  ` followed by
`r.Sprites.Other.OfficialArtwork.FrontDefault` between braces (two spaces after
each label).  They follow whatever `getPokemon` itself has printed, which is
nothing when the body decodes without error: the output is then these three
lines.  For the `ditto` fixture the lines are `name:  ditto`, `pokemon#:  123`
and `Artwork URL:  {https://example/ditto.png}`. -/
theorem C1_get_prints_name_order_artwork (w : World) (arg0 : String) (rest : List String)
    (status : Nat) (body : List UInt8)
    (hget : (http.Get w (endpoint arg0)).result
      = .returned (.ok { statusCode := status, body := .ok body })) :
    (getCmd.Run w (arg0 :: rest)).stdout =
      (getPokemon w arg0).stdout ++
        ["name:  " ++ Name (Unmarshal w.floatOk body Response (zero Response)).1,
         "pokemon#:  " ++ formatInt (Order (Unmarshal w.floatOk body Response (zero Response)).1),
         "Artwork URL:  \x7b" ++
           FrontDefault (Unmarshal w.floatOk body Response (zero Response)).1 ++ "\x7d"] ∧
    ((Unmarshal w.floatOk body Response (zero Response)).2 = none →
      (getCmd.Run w (arg0 :: rest)).stdout =
        ["name:  " ++ Name (Unmarshal w.floatOk body Response (zero Response)).1,
         "pokemon#:  " ++ formatInt (Order (Unmarshal w.floatOk body Response (zero Response)).1),
         "Artwork URL:  \x7b" ++
           FrontDefault (Unmarshal w.floatOk body Response (zero Response)).1 ++ "\x7d"]) ∧
    (getCmd.Run (stubServer 200 dittoFixture) ["ditto"]).stdout =
        ["name:  ditto", "pokemon#:  123", "Artwork URL:  \x7bhttps://example/ditto.png\x7d"] := by
  have hrep := report_eq _ (Unmarshal_typed w.floatOk body)
  refine ⟨?_, ?_, by decide⟩
  · rw [getCmd_Run_of_body w arg0 rest status body hget,
      getPokemon_of_body w arg0 status body hget, hrep]
  · intro hnone
    rw [getCmd_Run_of_body w arg0 rest status body hget, hrep]
    simp [hnone]

/-- C1, at the `ditto` fixture: the stub server answers 200 with the fixture,
which decodes without error, and the three lines are those of the scenario. -/
theorem C1_get_prints_name_order_artwork_witness :
    (http.Get (stubServer 200 dittoFixture) (endpoint "ditto")).result
      = .returned (.ok { statusCode := 200, body := .ok dittoFixture }) ∧
    (Unmarshal (stubServer 200 dittoFixture).floatOk dittoFixture Response (zero Response)).2
      = none ∧
    (getCmd.Run (stubServer 200 dittoFixture) ["ditto"]).stdout =
        ["name:  ditto", "pokemon#:  123", "Artwork URL:  \x7bhttps://example/ditto.png\x7d"] :=
  ⟨rfl, rfl,
    ((C1_get_prints_name_order_artwork (stubServer 200 dittoFixture) "ditto" [] 200 dittoFixture
      rfl).2.1 rfl).trans (by decide)⟩

/-- C2, refuted at the body `not json`: the body is not well-formed JSON, yet
`getPokemon` returns normally, and what it returns is the zero Response, the
very value it returns for the well-formed body `{}`. -/
theorem C2_counterexample :
    parseJSON notJSON = none ∧
    (getPokemon (stubServer 200 notJSON) "ditto").result = .returned (zero Response) ∧
    (getPokemon (stubServer 200 emptyObject) "ditto").result = .returned (zero Response) :=
  ⟨rfl, rfl, rfl⟩

/-- C2, amended: for every response body that is not well-formed JSON,
`getPokemon` writes the line `Can not unmarshal JSON` to standard output and
returns the zero Response as an ordinary return value, the value it also
returns when the server sends the well-formed body `{}`: no error outcome
reaches the caller. -/
theorem C2_malformed_body_returns_zero_response (w : World) (a : String) (status : Nat)
    (body : List UInt8)
    (hget : (http.Get w (endpoint a)).result
      = .returned (.ok { statusCode := status, body := .ok body }))
    (hbad : parseJSON body = none) :
    getPokemon w a =
      { requests := [endpoint a], gets := (w.transport (endpoint a)).gets,
        stdout := ["Can not unmarshal JSON"], log := [],
        result := .returned (zero Response) } ∧
    (∀ (w' : World) (status' : Nat),
      (http.Get w' (endpoint a)).result
        = .returned (.ok { statusCode := status', body := .ok emptyObject }) →
      (getPokemon w' a).result = (getPokemon w a).result) := by
  have h : getPokemon w a =
      { requests := [endpoint a], gets := (w.transport (endpoint a)).gets,
        stdout := ["Can not unmarshal JSON"], log := [],
        result := .returned (zero Response) } := by
    rw [getPokemon_of_body w a status body hget, Unmarshal_syntaxError _ _ _ _ hbad]
    rfl
  refine ⟨h, ?_⟩
  intro w' status' hget'
  rw [h, getPokemon_of_body w' a status' emptyObject hget',
    Unmarshal_parsed w'.floatOk emptyObject Response (zero Response) (.obj []) rfl]
  rfl

/-- C2 amended, at the body `not json`. -/
theorem C2_malformed_body_returns_zero_response_witness :
    (http.Get (stubServer 200 notJSON) (endpoint "ditto")).result
      = .returned (.ok { statusCode := 200, body := .ok notJSON }) ∧
    parseJSON notJSON = none ∧
    getPokemon (stubServer 200 notJSON) "ditto" =
      { requests := [endpoint "ditto"], gets := 1,
        stdout := ["Can not unmarshal JSON"], log := [],
        result := .returned (zero Response) } :=
  ⟨rfl, rfl,
    (C2_malformed_body_returns_zero_response (stubServer 200 notJSON) "ditto" 200
      notJSON rfl rfl).1⟩

/-- C5, refuted at a server that answers 404 with an empty body: `getPokemon`
returns normally with the zero Response, exactly as it does when the status
is 200; no not-found outcome exists. -/
theorem C5_counterexample :
    (getPokemon (stubServer 404 []) "missingno").result = .returned (zero Response) ∧
    getPokemon (stubServer 404 []) "missingno" = getPokemon (stubServer 200 []) "missingno" :=
  ⟨rfl, rfl⟩

/-- C5, amended: when the server answers HTTP 404 with an empty body,
`getPokemon` does not crash: the status is never looked at, the empty body
fails to decode, the line `Can not unmarshal JSON` is written to standard
output and the zero Response is returned as an ordinary return value, exactly
as for an empty body sent with any other status (the runs differ at most in
the number of requests the network layer sent). -/
theorem C5_not_found_returns_zero_response (w : World) (a : String)
    (hget : (http.Get w (endpoint a)).result
      = .returned (.ok { statusCode := 404, body := .ok [] })) :
    getPokemon w a =
      { requests := [endpoint a], gets := (w.transport (endpoint a)).gets,
        stdout := ["Can not unmarshal JSON"], log := [],
        result := .returned (zero Response) } ∧
    (∀ (w' : World) (status' : Nat),
      (http.Get w' (endpoint a)).result
        = .returned (.ok { statusCode := status', body := .ok [] }) →
      getPokemon w' a
        = { getPokemon w a with gets := (w'.transport (endpoint a)).gets }) := by
  have h : ∀ (w' : World) (status' : Nat),
      (http.Get w' (endpoint a)).result
        = .returned (.ok { statusCode := status', body := .ok [] }) →
      getPokemon w' a =
        { requests := [endpoint a], gets := (w'.transport (endpoint a)).gets,
          stdout := ["Can not unmarshal JSON"], log := [],
          result := .returned (zero Response) } := by
    intro w' status' hget'
    rw [getPokemon_of_body w' a status' [] hget',
      Unmarshal_syntaxError w'.floatOk [] Response (zero Response) rfl]
    rfl
  refine ⟨h w 404 hget, fun w' status' hget' => ?_⟩
  rw [h w' status' hget', h w 404 hget]

/-- C5 amended, at the stub server that answers 404 with an empty body. -/
theorem C5_not_found_returns_zero_response_witness :
    (http.Get (stubServer 404 []) (endpoint "missingno")).result
      = .returned (.ok { statusCode := 404, body := .ok [] }) ∧
    getPokemon (stubServer 404 []) "missingno" =
      { requests := [endpoint "missingno"], gets := 1,
        stdout := ["Can not unmarshal JSON"], log := [],
        result := .returned (zero Response) } :=
  ⟨rfl, (C5_not_found_returns_zero_response (stubServer 404 []) "missingno" rfl).1⟩

/-- C8, refuted at the body `not json`: no transport failure occurs, the
command ends normally, and it has printed four lines, not three. -/
theorem C8_counterexample :
    (getCmd.Run (stubServer 200 notJSON) ["ditto"]).stdout =
      ["Can not unmarshal JSON", "name:  ", "pokemon#:  0", "Artwork URL:  \x7b\x7d"] ∧
    (getCmd.Run (stubServer 200 notJSON) ["ditto"]).result = .returned () :=
  ⟨by decide, rfl⟩

/-- C8, amended: on every invocation with at least one argument in which the
server answers with a body, the command ends normally and its standard output
is the name line, the pokemon# line and the Artwork URL line, preceded by the
line `Can not unmarshal JSON` exactly when decoding the body reported an
error; nothing is logged. -/
theorem C8_normal_exit_three_lines_after_diagnostic (w : World) (a : String)
    (rest : List String) (status : Nat) (body : List UInt8)
    (hget : (http.Get w (endpoint a)).result
      = .returned (.ok { statusCode := status, body := .ok body })) :
    (getCmd.Run w (a :: rest)).result = .returned () ∧
    (getCmd.Run w (a :: rest)).log = [] ∧
    (getCmd.Run w (a :: rest)).stdout =
      (if (Unmarshal w.floatOk body Response (zero Response)).2.isSome then
        ["Can not unmarshal JSON"]
       else []) ++
      ["name:  " ++ Name (Unmarshal w.floatOk body Response (zero Response)).1,
       "pokemon#:  " ++ formatInt (Order (Unmarshal w.floatOk body Response (zero Response)).1),
       "Artwork URL:  \x7b" ++
         FrontDefault (Unmarshal w.floatOk body Response (zero Response)).1 ++ "\x7d"] := by
  rw [getCmd_Run_of_body w a rest status body hget]
  refine ⟨rfl, rfl, ?_⟩
  simp only
  rw [report_eq _ (Unmarshal_typed w.floatOk body)]

/-- C8 amended, at the `ditto` fixture (no error, three lines). -/
theorem C8_normal_exit_three_lines_after_diagnostic_witness :
    (http.Get (stubServer 200 dittoFixture) (endpoint "ditto")).result
      = .returned (.ok { statusCode := 200, body := .ok dittoFixture }) ∧
    (getCmd.Run (stubServer 200 dittoFixture) ["ditto"]).result = .returned () ∧
    (getCmd.Run (stubServer 200 dittoFixture) ["ditto"]).stdout =
      ["name:  ditto", "pokemon#:  123", "Artwork URL:  \x7bhttps://example/ditto.png\x7d"] :=
  ⟨rfl,
    (C8_normal_exit_three_lines_after_diagnostic (stubServer 200 dittoFixture) "ditto" [] 200
      dittoFixture rfl).1,
    (C8_normal_exit_three_lines_after_diagnostic (stubServer 200 dittoFixture) "ditto" [] 200
      dittoFixture rfl).2.2.trans (by decide)⟩

/-! ## The fields `Name` and `Order` of `Response` -/

/-- C6, refuted twice.  In the body `{"name":"ditto","NAME":"x","order":1}`
the `name` is the non-empty string `ditto` and the `order` is 1, yet the
Response has `Name = x`: the member `NAME` is decoded into `Name` as well, and
it comes last.  In the body `{"name":"ditto","order":9223372036854775808}`
the `order` is a non-negative integer, yet the Response has `Order = 0` and
the diagnostic is printed: the number does not fit the 64-bit `int`. -/
theorem C6_counterexample :
    parseJSON nameTwice
      = some (.obj [("name", .str "ditto"), ("NAME", .str "x"), ("order", .num "1")]) ∧
    (getPokemon (stubServer 200 nameTwice) "ditto").stdout = [] ∧
    (getPokemon (stubServer 200 nameTwice) "ditto").result
      = .returned (Unmarshal (fun _ => true) nameTwice Response (zero Response)).1 ∧
    Name (Unmarshal (fun _ => true) nameTwice Response (zero Response)).1 = "x" ∧
    Order (Unmarshal (fun _ => true) nameTwice Response (zero Response)).1 = 1 ∧
    parseJSON orderTooLarge
      = some (.obj [("name", .str "ditto"), ("order", .num "9223372036854775808")]) ∧
    (getPokemon (stubServer 200 orderTooLarge) "ditto").stdout = ["Can not unmarshal JSON"] ∧
    (getPokemon (stubServer 200 orderTooLarge) "ditto").result
      = .returned (Unmarshal (fun _ => true) orderTooLarge Response (zero Response)).1 ∧
    Name (Unmarshal (fun _ => true) orderTooLarge Response (zero Response)).1 = "ditto" ∧
    Order (Unmarshal (fun _ => true) orderTooLarge Response (zero Response)).1 = 0 :=
  ⟨rfl, by decide, rfl, by decide, by decide, rfl, by decide, rfl, by decide, by decide⟩

/-- C6, amended: when the body is a JSON object in which the last member
whose key equals `name` up to letter case is the non-empty string `n`, and
the last member whose key equals `order` up to letter case is the decimal
numeral of an integer `k` with `0 ≤ k < 2^63`, `getPokemon` returns a Response
with `Name = n` and `Order = k`, a non-empty name and a non-negative order,
whatever else the body holds. -/
theorem C6_last_name_and_order_members_are_decoded (w : World) (a : String) (status : Nat)
    (body : List UInt8) (ms : List (String × JSONValue)) (kn n ko : String) (k : Nat)
    (hget : (http.Get w (endpoint a)).result
      = .returned (.ok { statusCode := status, body := .ok body }))
    (hobj : parseJSON body = some (.obj ms))
    (hname : (ms.filter (fun m => equalFold "name" m.1)).getLast? = some (kn, .str n))
    (hn : n ≠ "")
    (horder : (ms.filter (fun m => equalFold "order" m.1)).getLast?
      = some (ko, .num (Nat.repr k)))
    (hk : k < 2 ^ 63) :
    ∃ r, (getPokemon w a).result = .returned r ∧
      Name r = n ∧ Order r = (k : Int) ∧ Name r ≠ "" ∧ 0 ≤ Order r := by
  refine ⟨(decode w.floatOk Response (zero Response) (.obj ms)).1, ?_,
    Name_of_last w.floatOk ms kn n hname, Order_of_last w.floatOk ms ko k hk horder, ?_, ?_⟩
  · rw [getPokemon_of_body w a status body hget, Unmarshal_parsed _ _ _ _ _ hobj]
  · rw [Name_of_last w.floatOk ms kn n hname]; exact hn
  · rw [Order_of_last w.floatOk ms ko k hk horder]; exact Int.natCast_nonneg k

/-- C6 amended, at the body `{"name": "Flabébé", "order": 790,
"weight": "light"}`: the name, written with an escape and a two-byte
character, is decoded to `Flabébé` and the order to 790, although the weight
has the wrong type. -/
theorem C6_last_name_and_order_members_are_decoded_witness :
    (http.Get (stubServer 200 flabebe) (endpoint "flabebe")).result
      = .returned (.ok { statusCode := 200, body := .ok flabebe }) ∧
    parseJSON flabebe
      = some (.obj [("name", .str "Flabébé"), ("order", .num "790"),
          ("weight", .str "light")]) ∧
    ∃ r, (getPokemon (stubServer 200 flabebe) "flabebe").result = .returned r ∧
      Name r = "Flabébé" ∧ Order r = ((790 : Nat) : Int) ∧ Name r ≠ "" ∧ 0 ≤ Order r :=
  ⟨rfl, rfl, C6_last_name_and_order_members_are_decoded (stubServer 200 flabebe)
    "flabebe" 200 flabebe
    [("name", .str "Flabébé"), ("order", .num "790"), ("weight", .str "light")]
    "name" "Flabébé" "order" 790 rfl rfl rfl (by decide) rfl (by decide)⟩

/-! ## Decoding failures -/

/-- C9: when decoding the body fails, `getPokemon` does not abort: it writes
`Can not unmarshal JSON` and returns the Response as decoded so far.  For a
body that is not valid JSON this is the zero value (empty name, order 0, empty
artwork URL, every slice nil).  For a body that is a valid JSON object, a type
mismatch in one field leaves the others alone: every field, at any depth below
`Response`, that the object binds once, to a value of the shape of the field's
Go type, holds the Go value this JSON value stands for; and in general what a
field holds is determined by the values the body gives to this field, so that
it is the same after any other body that gives it the same values.  For the body
`{"name": "ditto", "order": "x", "forms": [{"name": "ditto", "url":
"https://pokeapi.co/api/v2/pokemon-form/132/"}]}` the mismatch is reported,
`Name` is `ditto`, `Forms` is the one form of the body, and `Order` stays 0. -/
theorem C9_decode_failure_is_reported_and_a_response_returned (w : World) (a : String)
    (status : Nat) (body : List UInt8)
    (hget : (http.Get w (endpoint a)).result
      = .returned (.ok { statusCode := status, body := .ok body })) :
    ((Unmarshal w.floatOk body Response (zero Response)).2 ≠ none →
      (getPokemon w a).stdout = ["Can not unmarshal JSON"] ∧
      (getPokemon w a).log = [] ∧
      (getPokemon w a).result
        = .returned (Unmarshal w.floatOk body Response (zero Response)).1) ∧
    (parseJSON body = none →
      (Unmarshal w.floatOk body Response (zero Response)).2 ≠ none ∧
      (getPokemon w a).result = .returned (zero Response)) ∧
    (Name (zero Response) = "" ∧ Order (zero Response) = 0 ∧
      FrontDefault (zero Response) = "" ∧
      ∀ f ∈ Response.fields, f.2.2.isSlice = true →
        (zero Response).path [f.1] = .nilSlice) ∧
    (∀ ms, parseJSON body = some (.obj ms) →
      (∀ (p : List String) (t : GoType) (x : JSONValue) (y : GoValue),
        Response.path p = some t → valuesAt Response (.obj ms) p = [x] →
        denote w.floatOk t x = some y →
        (Unmarshal w.floatOk body Response (zero Response)).1.path p = y) ∧
      (∀ (p : List String) (t : GoType) (body' : List UInt8) (doc' : JSONValue),
        Response.path p = some t → parseJSON body' = some doc' →
        valuesAt Response doc' p = valuesAt Response (.obj ms) p →
        (Unmarshal w.floatOk body' Response (zero Response)).1.path p
          = (Unmarshal w.floatOk body Response (zero Response)).1.path p)) ∧
    ((getPokemon (stubServer 200 orderAsStringWithForms) "ditto").stdout
        = ["Can not unmarshal JSON"] ∧
      ∃ r, (getPokemon (stubServer 200 orderAsStringWithForms) "ditto").result
          = .returned r ∧
        Name r = "ditto" ∧ Order r = 0 ∧
        r.path ["Forms"] = .slice [.struct [("Name", .str "ditto"),
          ("URL", .str "https://pokeapi.co/api/v2/pokemon-form/132/")]] []) := by
  refine ⟨?_, ?_, ⟨rfl, rfl, rfl, ?_⟩, ?_, ⟨by decide, _, rfl, by decide, by decide, rfl⟩⟩
  · intro herr
    rw [getPokemon_of_body w a status body hget]
    cases h : (Unmarshal w.floatOk body Response (zero Response)).2 with
    | none => exact absurd h herr
    | some e => simp
  · intro hbad
    rw [getPokemon_of_body w a status body hget, Unmarshal_syntaxError _ _ _ _ hbad]
    simp
  · intro f hf hs
    have hall : ∀ f ∈ Response.fields, f.2.2.isSlice = true →
        ((zero Response).path [f.1]).isNilSlice = true := by decide
    exact isNilSlice_eq _ (hall f hf hs)
  · intro ms hms
    constructor
    · intro p t x y ht hx hy
      rw [Unmarshal_parsed _ _ _ _ _ hms]
      exact Response_path_denote w.floatOk (.obj ms) p t x y ht hx hy
    · intro p t body' doc' ht hd hv
      rw [Unmarshal_parsed _ _ _ _ _ hms, Unmarshal_parsed _ _ _ _ _ hd]
      simp only
      rw [Response_path _ _ p t ht, Response_path _ _ p t ht, hv]

/-- C9, at the body `not json` (decoding fails, the diagnostic is written and
the zero Response is returned) and at the body with the order as a string, for
its field `Forms`. -/
theorem C9_decode_failure_is_reported_and_a_response_returned_witness :
    ((http.Get (stubServer 200 notJSON) (endpoint "ditto")).result
        = .returned (.ok { statusCode := 200, body := .ok notJSON }) ∧
      parseJSON notJSON = none ∧
      (getPokemon (stubServer 200 notJSON) "ditto").stdout
        = ["Can not unmarshal JSON"] ∧
      (getPokemon (stubServer 200 notJSON) "ditto").result
        = .returned (zero Response)) ∧
    ((http.Get (stubServer 200 orderAsStringWithForms) (endpoint "ditto")).result
        = .returned (.ok { statusCode := 200, body := .ok orderAsStringWithForms }) ∧
      (Unmarshal (fun _ => true) orderAsStringWithForms Response (zero Response)).2
        = some (.typeError "string") ∧
      (Unmarshal (fun _ => true) orderAsStringWithForms Response (zero Response)).1.path
          ["Forms"]
        = .slice [.struct [("Name", .str "ditto"),
            ("URL", .str "https://pokeapi.co/api/v2/pokemon-form/132/")]] []) :=
  have h := C9_decode_failure_is_reported_and_a_response_returned
    (stubServer 200 notJSON) "ditto" 200 notJSON rfl
  have h' := C9_decode_failure_is_reported_and_a_response_returned
    (stubServer 200 orderAsStringWithForms) "ditto" 200 orderAsStringWithForms rfl
  ⟨⟨rfl, rfl, (h.1 (h.2.1 rfl).1).1, (h.2.1 rfl).2⟩,
   ⟨rfl, rfl,
    (h'.2.2.2.1 [("name", .str "ditto"), ("order", .str "x"),
        ("forms", .arr [.obj [("name", .str "ditto"),
          ("url", .str "https://pokeapi.co/api/v2/pokemon-form/132/")]])] rfl).1
      ["Forms"] (.slice (.struct [("Name", "name", .string), ("URL", "url", .string)]))
      (.arr [.obj [("name", .str "ditto"),
          ("url", .str "https://pokeapi.co/api/v2/pokemon-form/132/")]])
      _ rfl rfl rfl⟩⟩

/-! ## Keys that match no field -/

/-- A key that equals no JSON key of the struct, even up to case, is decoded
into no field. -/
theorem findField_none (fields : List (String × String × GoType)) (k : String)
    (h : ∀ f ∈ fields, equalFold f.2.1 k = false) : findField fields k = none := by
  have h1 : fields.find? (fun f => decide (f.2.1 = k)) = none := by
    apply find?_eq_none_of_forall
    intro f hf
    have := h f hf
    by_cases e : f.2.1 = k
    · rw [e, equalFold_self] at this; cases this
    · simpa using e
  have h2 : fields.find? (fun f => equalFold f.2.1 k) = none :=
    find?_eq_none_of_forall _ _ h
  simp [findField, h1, h2]

/-- C4, refuted at the key `NAME`: it is not a key of the schema (at any
depth), the object `{}` decodes without error, and yet the object extended
with `"NAME": "ditto"` decodes to another Response (its `Name` is `ditto`, not
empty), because keys are matched to fields without regard to case. -/
theorem C4_counterexample :
    "NAME" ∉ jsonKeys Response ∧
    (Unmarshal (fun _ => true) emptyObject Response (zero Response)).2 = none ∧
    Name (Unmarshal (fun _ => true) emptyObject Response (zero Response)).1 = "" ∧
    Name (Unmarshal (fun _ => true) upperCaseName Response
      (zero Response)).1 = "ditto" :=
  ⟨by decide, rfl, by decide, by decide⟩

/-- C4, amended: for every JSON object and every key that equals no key of
the schema even up to case (Unicode simple case folding), decoding the object
extended with that key, bound to any value at any position, reports the same
outcome and yields the same Response as decoding the object itself; in
particular it succeeds when the object decodes without error. -/
theorem C4_unmatched_keys_are_ignored (fo : String → Bool) (body body' : List UInt8)
    (pre post : List (String × JSONValue)) (k : String) (x : JSONValue)
    (hd : parseJSON body = some (.obj (pre ++ post)))
    (hd' : parseJSON body' = some (.obj (pre ++ (k, x) :: post)))
    (hk : ∀ f ∈ Response.fields, equalFold f.2.1 k = false) :
    Unmarshal fo body' Response (zero Response) = Unmarshal fo body Response (zero Response) ∧
    ((Unmarshal fo body Response (zero Response)).2 = none →
      (Unmarshal fo body' Response (zero Response)).2 = none) := by
  have h : Unmarshal fo body' Response (zero Response)
      = Unmarshal fo body Response (zero Response) := by
    rw [Unmarshal_parsed _ _ _ _ _ hd, Unmarshal_parsed _ _ _ _ _ hd', decode_Response_obj,
      decode_Response_obj, decodeMembers_skip _ _ _ _ _ _ _ (findField_none _ _ hk)]
  exact ⟨h, fun h0 => by rw [h]; exact h0⟩

/-- C4 amended, at `{"name": "ditto"}` extended with `"color": "pink"`. -/
theorem C4_unmatched_keys_are_ignored_witness :
    parseJSON nameOnly = some (.obj ([("name", .str "ditto")] ++ [])) ∧
    parseJSON nameAndColor
      = some (.obj ([("name", .str "ditto")] ++ ("color", .str "pink") :: [])) ∧
    (∀ f ∈ Response.fields, equalFold f.2.1 "color" = false) ∧
    Unmarshal (fun _ => true) nameAndColor Response
        (zero Response)
      = Unmarshal (fun _ => true) nameOnly Response (zero Response) :=
  ⟨rfl, rfl, by decide,
    (C4_unmatched_keys_are_ignored (fun _ => true) nameOnly
      nameAndColor [("name", .str "ditto")] [] "color"
      (.str "pink") rfl rfl (by decide)).1⟩

/-! ## `null` and the empty string in the sprite fields -/

theorem allSpritesNull_binds : bindsEverySprite JSONValue.isNull allSpritesNull = true := by
  decide!

theorem allSpritesEmpty_binds :
    bindsEverySprite (JSONValue.isStr "") allSpritesEmpty = true := by
  decide!

theorem allSpritesNull_silent :
    (getPokemon (stubServer 200 allSpritesNull) "ditto").stdout = [] := by
  decide!

theorem allSpritesNull_BackDefault :
    ((Unmarshal (fun _ => true) allSpritesNull Response (zero Response)).1.path
      ["Sprites", "BackDefault"]).isStr "" = true := by
  decide!

theorem allSpritesEmpty_BackDefault :
    ((Unmarshal (fun _ => true) allSpritesEmpty Response (zero Response)).1.path
      ["Sprites", "BackDefault"]).isStr "" = true := by
  decide!

theorem string_sprites_count :
    ((leafFields SpritesType).filter (fun q => q.2.isString)).length = 64 := by
  rfl

theorem string_sprites_read_alike :
    ((leafFields SpritesType).filter (fun q => q.2.isString)).all (fun q =>
      ((Unmarshal (fun _ => true) allSpritesNull Response (zero Response)).1.path
        ("Sprites" :: q.1)).isStr "" &&
      ((Unmarshal (fun _ => true) allSpritesEmpty Response (zero Response)).1.path
        ("Sprites" :: q.1)).isStr "") = true := by
  decide!

/-- C3, refuted at the body that binds every sprite field, at every depth, to
`null`: it decodes without error (nothing is printed), and its field
`sprites.back_default` reads as the empty string, the very value it has after
decoding the body that binds every sprite field to `""`.  So it is for each
of the 64 sprite fields declared `string`. -/
theorem C3_counterexample :
    bindsEverySprite JSONValue.isNull allSpritesNull = true ∧
    bindsEverySprite (JSONValue.isStr "") allSpritesEmpty = true ∧
    (getPokemon (stubServer 200 allSpritesNull) "ditto").stdout = [] ∧
    (Unmarshal (fun _ => true) allSpritesNull Response (zero Response)).1.path
      ["Sprites", "BackDefault"] = .str "" ∧
    (Unmarshal (fun _ => true) allSpritesEmpty Response (zero Response)).1.path
      ["Sprites", "BackDefault"] = .str "" ∧
    ((leafFields SpritesType).filter (fun q => q.2.isString)).length = 64 ∧
    ((leafFields SpritesType).filter (fun q => q.2.isString)).all (fun q =>
      ((Unmarshal (fun _ => true) allSpritesNull Response (zero Response)).1.path
        ("Sprites" :: q.1)).isStr "" &&
      ((Unmarshal (fun _ => true) allSpritesEmpty Response (zero Response)).1.path
        ("Sprites" :: q.1)).isStr "") = true :=
  ⟨allSpritesNull_binds, allSpritesEmpty_binds, allSpritesNull_silent,
    isStr_eq "" _ allSpritesNull_BackDefault, isStr_eq "" _ allSpritesEmpty_BackDefault,
    string_sprites_count, string_sprites_read_alike⟩

/-- C3, amended: take a sprite field, a body that gives it no value other
than `null`, and a body that binds it to the empty string (gives it a value,
and no value other than `""`); what else the bodies hold is arbitrary.  A
sprite field declared `interface{}` reads as nil in the first Response and as
the empty string in the second: absent and empty are kept apart.  A sprite
field declared `string` reads as the empty string in both: for these fields
`null` cannot be told from an empty string.  Every sprite field is of one of
the two kinds. -/
theorem C3_null_is_absent_only_in_interface_fields (fo : String → Bool)
    (bodyNull bodyEmpty : List UInt8) (p : List String) (t : GoType)
    (hp : (p, t) ∈ leafFields SpritesType)
    (hnull : givesOnly JSONValue.isNull bodyNull ("Sprites" :: p) = true)
    (hbound : gives bodyEmpty ("Sprites" :: p) = true)
    (hempty : givesOnly (JSONValue.isStr "") bodyEmpty ("Sprites" :: p) = true) :
    (t = .iface ∧
      (Unmarshal fo bodyNull Response (zero Response)).1.path ("Sprites" :: p) = .nilIface ∧
      (Unmarshal fo bodyEmpty Response (zero Response)).1.path ("Sprites" :: p) = .str "") ∨
    (t = .string ∧
      (Unmarshal fo bodyNull Response (zero Response)).1.path ("Sprites" :: p) = .str "" ∧
      (Unmarshal fo bodyEmpty Response (zero Response)).1.path ("Sprites" :: p) = .str "") := by
  obtain ⟨hpath, ht⟩ := sprite_leaf p t hp
  unfold givesOnly at hnull hempty
  unfold gives at hbound
  cases hdn : parseJSON bodyNull with
  | none => simp [hdn] at hnull
  | some docNull =>
    cases hde : parseJSON bodyEmpty with
    | none => simp [hde] at hempty
    | some docEmpty =>
      simp only [hdn, List.all_eq_true] at hnull
      simp only [hde, List.all_eq_true] at hempty
      simp only [hde, Bool.not_eq_true', List.isEmpty_eq_false] at hbound
      have hn : ∀ x ∈ valuesAt Response docNull ("Sprites" :: p), x = .null :=
        fun x hx => isNull_eq x (hnull x hx)
      have he : ∀ x ∈ valuesAt Response docEmpty ("Sprites" :: p), x = .str "" :=
        fun x hx => isStrJSON_eq "" x (hempty x hx)
      rw [Unmarshal_parsed _ _ _ _ _ hdn, Unmarshal_parsed _ _ _ _ _ hde]
      simp only
      rw [Response_path fo docNull _ t hpath, Response_path fo docEmpty _ t hpath,
        decodeAll_str fo t ht _ "" _ hbound he]
      rcases ht with rfl | rfl
      · left
        exact ⟨rfl, decodeAll_null_iface fo _ hn, rfl⟩
      · right
        exact ⟨rfl, decodeAll_null_string fo _ _ hn, rfl⟩

/-- C3 amended, at `sprites.front_female` (declared `interface{}`), in the
bodies that bind every sprite field to `null` and to `""`. -/
theorem C3_null_is_absent_only_in_interface_fields_witness :
    (["FrontFemale"], GoType.iface) ∈ leafFields SpritesType ∧
    givesOnly JSONValue.isNull allSpritesNull ["Sprites", "FrontFemale"] = true ∧
    gives allSpritesEmpty ["Sprites", "FrontFemale"] = true ∧
    givesOnly (JSONValue.isStr "") allSpritesEmpty ["Sprites", "FrontFemale"] = true ∧
    (Unmarshal (fun _ => true) allSpritesNull Response (zero Response)).1.path
        ["Sprites", "FrontFemale"] = .nilIface ∧
    (Unmarshal (fun _ => true) allSpritesEmpty Response (zero Response)).1.path
        ["Sprites", "FrontFemale"] = .str "" :=
  have hm : (["FrontFemale"], GoType.iface) ∈ leafFields SpritesType :=
    List.getElem?_mem (show (leafFields SpritesType)[5]? = some (["FrontFemale"], .iface)
      from rfl)
  have h1 : givesOnly JSONValue.isNull allSpritesNull ["Sprites", "FrontFemale"] = true := by
    decide!
  have h2 : gives allSpritesEmpty ["Sprites", "FrontFemale"] = true := by decide!
  have h3 : givesOnly (JSONValue.isStr "") allSpritesEmpty ["Sprites", "FrontFemale"]
      = true := by decide!
  have h := C3_null_is_absent_only_in_interface_fields (fun _ => true)
    allSpritesNull allSpritesEmpty ["FrontFemale"] .iface hm h1 h2 h3
  ⟨hm, h1, h2, h3, h.elim (fun a => a.2) (fun a => nomatch a.1)⟩

end Pokedex
